import Mathlib

/-!
Verification development for the IPO data API (`ipo_api.py`).

The file shallowly embeds the caching layer, the dotted-path projection
engine and the status derivation of the repository, and proves the frozen
claims about them.  Python JSON values are modelled by the `Json` inductive;
Python dicts are association lists keeping insertion order, with key update
replacing in place (as CPython dicts do).  Filesystem state is abstracted
by the `FS` structure: presence flags, modification times and the result of
reading plus JSON-decoding each file (`none` models any read or decode
exception).  Code that can raise an uncaught exception is modelled in
`Except Unit`/`Except ApiErr`, with `error` standing for the exception.
-/

/-- JSON-like values as held in Python memory. Numbers are modelled by `Int`
(the documents' numeric leaves play no arithmetic role in the claims). -/
inductive Json where
  | null : Json
  | bool (b : Bool) : Json
  | num (n : Int) : Json
  | str (s : String) : Json
  | arr (xs : List Json) : Json
  | obj (fields : List (String × Json)) : Json
deriving Repr

mutual

/-- Structural equality test on `Json` (Python `==` restricted to the JSON
value domain: values of different JSON kinds are never equal here). -/
def Json.beq : Json → Json → Bool
  | Json.null, Json.null => true
  | Json.bool a, Json.bool b => a == b
  | Json.num a, Json.num b => a == b
  | Json.str a, Json.str b => a == b
  | Json.arr a, Json.arr b => Json.beqList a b
  | Json.obj a, Json.obj b => Json.beqFields a b
  | _, _ => false

/-- Elementwise `Json.beq` on lists. -/
def Json.beqList : List Json → List Json → Bool
  | [], [] => true
  | a :: as, b :: bs => Json.beq a b && Json.beqList as bs
  | _, _ => false

/-- Pairwise `Json.beq` on field lists (keys compared with `==`). -/
def Json.beqFields : List (String × Json) → List (String × Json) → Bool
  | [], [] => true
  | (k1, v1) :: t1, (k2, v2) :: t2 => k1 == k2 && Json.beq v1 v2 && Json.beqFields t1 t2
  | _, _ => false

end

mutual

theorem Json.beq_refl : (j : Json) → Json.beq j j = true
  | Json.null => rfl
  | Json.bool b => by simp [Json.beq]
  | Json.num n => by simp [Json.beq]
  | Json.str s => by simp [Json.beq]
  | Json.arr xs => by simp [Json.beq, Json.beqList_refl xs]
  | Json.obj fs => by simp [Json.beq, Json.beqFields_refl fs]

theorem Json.beqList_refl : (l : List Json) → Json.beqList l l = true
  | [] => rfl
  | a :: t => by simp [Json.beqList, Json.beq_refl a, Json.beqList_refl t]

theorem Json.beqFields_refl : (l : List (String × Json)) → Json.beqFields l l = true
  | [] => rfl
  | (k, v) :: t => by simp [Json.beqFields, Json.beq_refl v, Json.beqFields_refl t]

end

/-- Association-list lookup: first binding wins (Python dicts keep keys
unique, and all our updates preserve that). -/
def assocFind {K V : Type} [DecidableEq K] (k : K) : List (K × V) → Option V
  | [] => none
  | (k', v) :: t => if k' = k then some v else assocFind k t

/-- Association-list update mirroring Python `d[k] = v`: replace in place if
the key exists, else append at the end (insertion order preserved). -/
def assocSet {K V : Type} [DecidableEq K] (k : K) (v : V) : List (K × V) → List (K × V)
  | [] => [(k, v)]
  | (k', v') :: t => if k' = k then (k, v) :: t else (k', v') :: assocSet k v t

theorem assocFind_assocSet_self {K V : Type} [DecidableEq K] (k : K) (v : V)
    (l : List (K × V)) : assocFind k (assocSet k v l) = some v := by
  induction l with
  | nil => simp [assocFind, assocSet]
  | cons h t ih =>
    by_cases hk : h.1 = k
    · simp [assocSet, assocFind, hk]
    · simp [assocSet, assocFind, hk, ih]

theorem assocFind_assocSet_ne {K V : Type} [DecidableEq K] {k k' : K} (v : V)
    (l : List (K × V)) (h : k' ≠ k) :
    assocFind k' (assocSet k v l) = assocFind k' l := by
  induction l with
  | nil =>
    simp only [assocSet, assocFind]
    rw [if_neg (fun hh => h hh.symm)]
  | cons hd t ih =>
    by_cases hk : hd.1 = k
    · subst hk
      simp only [assocSet, if_pos rfl, assocFind]
      rw [if_neg (fun hh => h hh.symm), if_neg (fun hh => h hh.symm)]
    · simp only [assocSet, if_neg hk, assocFind, ih]

/-- Membership of the freshly written binding after an update. -/
theorem mem_assocSet_self {K V : Type} [DecidableEq K] (k : K) (v : V)
    (l : List (K × V)) : (k, v) ∈ assocSet k v l := by
  induction l with
  | nil => simp [assocSet]
  | cons hd t ih =>
    by_cases hk : hd.1 = k
    · simp [assocSet, hk]
    · simp only [assocSet, if_neg hk, List.mem_cons]
      exact Or.inr ih

/-- ASCII decimal digit test (Python `str.isdigit` restricted to ASCII;
the corpus paths and field selectors are ASCII). -/
def isAsciiDigit (c : Char) : Bool := '0' ≤ c && c ≤ '9'

/-- Numeric value of a digit character. -/
def digitVal (c : Char) : Nat := c.toNat - '0'.toNat

/-- Decimal value of a digit string, as Python `int` on a digit-only string. -/
def digitsToNat (cs : List Char) : Nat := cs.foldl (fun a c => a * 10 + digitVal c) 0

/-- First codepoints of the Unicode 14 decimal-digit (Nd) runs, as compiled
into CPython 3.11: every Nd block is a run of ten codepoints carrying the
values 0 through 9 in order (the five mathematical-digit styles appear as
five consecutive runs).  These are exactly the characters `int()` accepts
as digits. -/
def ndRangeStarts : List Nat :=
  [0x30, 0x660, 0x6F0, 0x7C0, 0x966, 0x9E6, 0xA66, 0xAE6, 0xB66, 0xBE6,
   0xC66, 0xCE6, 0xD66, 0xDE6, 0xE50, 0xED0, 0xF20, 0x1040, 0x1090, 0x17E0,
   0x1810, 0x1946, 0x19D0, 0x1A80, 0x1A90, 0x1B50, 0x1BB0, 0x1C40, 0x1C50,
   0xA620, 0xA8D0, 0xA900, 0xA9D0, 0xA9F0, 0xAA50, 0xABF0, 0xFF10, 0x104A0,
   0x10D30, 0x11066, 0x110F0, 0x11136, 0x111D0, 0x112F0, 0x11450, 0x114D0,
   0x11650, 0x116C0, 0x11730, 0x118E0, 0x11950, 0x11C50, 0x11D50, 0x11DA0,
   0x16A60, 0x16AC0, 0x16B50, 0x1D7CE, 0x1D7D8, 0x1D7E2, 0x1D7EC, 0x1D7F6,
   0x1E140, 0x1E2F0, 0x1E950, 0x1FBF0]

/-- Codepoint ranges with Unicode Numeric_Type=Digit that are NOT decimal
digits (superscripts, subscripts, circled and dingbat digits, Ethiopic and
Kharoshthi digits, and so on): `str.isdigit()` accepts them but `int()`
raises ValueError on them. -/
def digitOnlyRanges : List (Nat × Nat) :=
  [(0xB2, 0xB3), (0xB9, 0xB9), (0x1369, 0x1371), (0x19DA, 0x19DA),
   (0x2070, 0x2070), (0x2074, 0x2079), (0x2080, 0x2089), (0x2460, 0x2468),
   (0x2474, 0x247C), (0x2488, 0x2490), (0x24EA, 0x24EA), (0x24F5, 0x24FD),
   (0x24FF, 0x24FF), (0x2776, 0x277E), (0x2780, 0x2788), (0x278A, 0x2792),
   (0x10A40, 0x10A43), (0x10E60, 0x10E68), (0x11052, 0x1105A), (0x1F100, 0x1F10A)]

/-- Decimal value of a character as `int()` parses it: defined exactly on
the Nd codepoints. -/
def pyCharDecimalVal (c : Char) : Option Nat :=
  match ndRangeStarts.find? (fun s => s ≤ c.toNat && c.toNat ≤ s + 9) with
  | some s => some (c.toNat - s)
  | none => none

/-- Python's character-level `isdigit`: decimal digits plus the
Numeric_Type=Digit characters that `int()` rejects. -/
def pyCharIsDigit (c : Char) : Bool :=
  (pyCharDecimalVal c).isSome ||
    digitOnlyRanges.any (fun r => r.1 ≤ c.toNat && c.toNat ≤ r.2)

/-- Python `key.isdigit()`: nonempty and all digit-class characters (so
negative indices and anything with a sign or dot fail the test, while
non-ASCII decimal and superscript-style digits pass). -/
def pyIsDigitStr (s : String) : Bool := s ≠ "" && s.data.all pyCharIsDigit

/-- Python `int(s)` on an `isdigit`-true string: succeeds with the base-10
value iff every character is a decimal (Nd) digit; `none` models the
ValueError raised when a Numeric_Type=Digit character such as a superscript
is present. -/
def pyIntOfDigits (cs : List Char) : Option Nat :=
  cs.foldl
    (fun acc c =>
      match acc, pyCharDecimalVal c with
      | some a, some v => some (a * 10 + v)
      | _, _ => none)
    (some 0)

/-- Split a character list on the dot character, Python `str.split('.')`
semantics: the empty string yields one empty part, adjacent dots yield empty
parts. -/
def splitDotChars : List Char → List (List Char)
  | [] => [[]]
  | c :: t =>
    if c = '.' then [] :: splitDotChars t
    else
      match splitDotChars t with
      | h :: r => (c :: h) :: r
      | [] => [[c]]

/-- Python `key_path.split('.')`. -/
def pySplitDot (s : String) : List String := (splitDotChars s.data).map String.mk

/-- Walk of `get_nested_value` (ipo_api.py lines 311-333) over the split key
path: descend through dict keys, or through list indices when the segment is
digit-class and in bounds; every failure returns `none` (Python `None`).
The `try`/`except ValueError` of lines 323-330 is live for digit-class
segments that `int()` rejects (such as a superscript digit): resolution
still safely yields `none` there. -/
def gnv : Json → List String → Option Json
  | v, [] => some v
  | v, k :: ks =>
    match v with
    | Json.obj fields =>
      match assocFind k fields with
      | some v2 => gnv v2 ks
      | none => none
    | Json.arr xs =>
      if pyIsDigitStr k then
        match pyIntOfDigits k.data with
        | some i =>
          match xs.get? i with
          | some v2 => gnv v2 ks
          | none => none
        | none => none
      else none
    | _ => none

/-- `get_nested_value(data, key_path)` from ipo_api.py lines 311-333. -/
def get_nested_value (data : Json) (key_path : String) : Option Json :=
  gnv data (pySplitDot key_path)

/-- Growth loop of the reconstruction (lines 566-568): append empty dicts
until the list is long enough for the index. -/
def growTo (xs : List Json) (idx : Nat) : List Json :=
  xs ++ List.replicate (idx + 1 - xs.length) (Json.obj [])

/-- Python `d[k] = v` as an expression: succeeds only on a dict; on any other
value CPython raises TypeError, modelled by `none`. -/
def setKeyObj (j : Json) (k : String) (v : Json) : Option Json :=
  match j with
  | Json.obj fields => some (Json.obj (assocSet k v fields))
  | _ => none

/-- Reconstruction loop of `get_single_ipo_by_slug` (lines 555-573), written
as structural recursion over the remaining path parts.  The Python loop
mutates `temp_target` along the path; here the transformed subtree is put
back in its place, which is the same final tree.  `none` models an uncaught
exception aborting the request: a TypeError from a subscript on a non-dict,
or the ValueError from the unguarded `int(path_parts[i+1])` on line 566
when the looked-ahead segment is digit-class but not decimal (the partial
mutation Python performs before raising is unobservable, as the request
then aborts). -/
def recon (target : Json) : List String → Json → Option Json
  | [], _ => some target
  | [p], value => setKeyObj target p value
  | p :: q :: rest, value =>
    match target with
    | Json.obj fields =>
      if pyIsDigitStr q then
        match pyIntOfDigits q.data with
        | none => none
        | some idx =>
          let base : List Json :=
            match assocFind p fields with
            | some (Json.arr xs) => xs
            | _ => []
          let grown := growTo base idx
          match grown.get? idx with
          | none => none
          | some elem =>
            match recon elem (q :: rest) value with
            | some elem2 =>
              some (Json.obj (assocSet p (Json.arr (grown.set idx elem2)) fields))
            | none => none
      else
        let base : Json :=
          match assocFind p fields with
          | some (Json.obj sub) => Json.obj sub
          | _ => Json.obj []
        match recon base (q :: rest) value with
        | some sub2 => some (Json.obj (assocSet p sub2 fields))
        | none => none
    | _ => none

/-- Python `None` placed into the response where resolution failed. -/
def optToJson : Option Json → Json
  | some j => j
  | none => Json.null

/-- Field projection of `get_single_ipo_by_slug` (lines 548-573): resolve
each requested path with `get_nested_value` and rebuild the filtered
response, merging into the accumulator dict. -/
def projectFields (doc : Json) (fields : List String) : Option Json :=
  fields.foldlM
    (fun acc fp => recon acc (pySplitDot fp) (optToJson (get_nested_value doc fp)))
    (Json.obj [])

example : projectFields
    (Json.obj [("a", Json.obj [("b", Json.num 1), ("c", Json.num 2), ("d", Json.num 3)])])
    ["a.b", "a.c"]
    = some (Json.obj [("a", Json.obj [("b", Json.num 1), ("c", Json.num 2)])]) := by rfl

example : projectFields
    (Json.obj [("items", Json.arr [Json.obj [("name", Json.str "x")]])])
    ["items.0.name"]
    = some (Json.obj [("items",
        Json.arr [Json.obj [("0", Json.obj [("name", Json.str "x")])]])]) := by rfl

example : projectFields (Json.obj [("items", Json.arr [])]) ["items.0.name"]
    = some (Json.obj [("items",
        Json.arr [Json.obj [("0", Json.obj [("name", Json.null)])]])]) := by rfl

/-- Calendar dates as compared by Python `datetime.date`: lexicographic on
(year, month, day). -/
structure PyDate where
  year : Nat
  month : Nat
  day : Nat
deriving DecidableEq, Repr

/-- Strict order of `datetime.date` values. -/
def PyDate.lt (a b : PyDate) : Bool :=
  decide (a.year < b.year ∨ (a.year = b.year ∧
    (a.month < b.month ∨ (a.month = b.month ∧ a.day < b.day))))

/-- Non-strict order of `datetime.date` values. -/
def PyDate.le (a b : PyDate) : Bool := PyDate.lt a b || decide (a = b)

/-- Python `\s` for the `re` module and `str.strip()` (ASCII whitespace). -/
def pyIsSpace (c : Char) : Bool :=
  c = ' ' || c = '\t' || c = '\n' || c = '\r' || c = '\x0b' || c = '\x0c'

/-- Python `\w` word characters, restricted to ASCII (the corpus strings the
status code sees are ASCII; Unicode word characters are not modelled). -/
def isWordChar (c : Char) : Bool := c.isAlpha || isAsciiDigit c || c = '_'

/-- Match of the sub-pattern `\w+ \d+, \d{4}` at the head of the input.
Greedy runs here are deterministic: each `+` run is followed by a character
that cannot extend it, so CPython backtracking never picks a shorter run.
Returns the matched group and the remaining characters. -/
def matchDatePartAt (cs : List Char) : Option (List Char × List Char) :=
  let ws := cs.span isWordChar
  if ws.1 = [] then none
  else
    match ws.2 with
    | ' ' :: r2 =>
      let ds := r2.span isAsciiDigit
      if ds.1 = [] then none
      else
        match ds.2 with
        | ',' :: ' ' :: r4 =>
          match r4 with
          | a :: b :: c :: d :: r5 =>
            if isAsciiDigit a && isAsciiDigit b && isAsciiDigit c && isAsciiDigit d then
              some (ws.1 ++ ' ' :: ds.1 ++ [',', ' ', a, b, c, d], r5)
            else none
          | _ => none
        | _ => none
    | _ => none

/-- Anchored match of `(\w+ \d+, \d{4})to(\w+ \d+, \d{4})` (the
`re.match` on line 191 of ipo_api.py); trailing characters are allowed, as
`re.match` does not anchor the end. -/
def matchIPORange (s : String) : Option (String × String) :=
  match matchDatePartAt s.data with
  | some (g1, r) =>
    match r with
    | 't' :: 'o' :: r2 =>
      match matchDatePartAt r2 with
      | some (g2, _) => some (String.mk g1, String.mk g2)
      | none => none
    | _ => none
  | none => none

/-- Scan for the leftmost match of `(\w+ \d+, \d{4})` (the `re.search` on
line 215 of ipo_api.py). -/
def searchDatePartChars : List Char → Option (List Char)
  | [] => none
  | c :: rest =>
    match matchDatePartAt (c :: rest) with
    | some (g, _) => some g
    | none => searchDatePartChars rest

/-- String wrapper for `searchDatePartChars`. -/
def searchDatePart (s : String) : Option String :=
  (searchDatePartChars s.data).map String.mk

/-- Month abbreviations recognised by `strptime` directive `%b` in the C
locale, lowercase (the generated regex is case-insensitive). -/
def monthAbbrs : List (String × Nat) :=
  [("jan", 1), ("feb", 2), ("mar", 3), ("apr", 4), ("may", 5), ("jun", 6),
   ("jul", 7), ("aug", 8), ("sep", 9), ("oct", 10), ("nov", 11), ("dec", 12)]

/-- Weekday abbreviations recognised by `%a`, lowercase. -/
def weekAbbrs : List String := ["mon", "tue", "wed", "thu", "fri", "sat", "sun"]

/-- Parse `%b`: exactly three characters, compared case-insensitively against
the month abbreviations. -/
def parseMonthAb (cs : List Char) : Option (Nat × List Char) :=
  match cs with
  | a :: b :: c :: r =>
    match assocFind (String.mk [a.toLower, b.toLower, c.toLower]) monthAbbrs with
    | some m => some (m, r)
    | none => none
  | _ => none

/-- Parse `%a`: three characters, case-insensitive weekday abbreviation; the
parsed weekday is not used further (strptime does not cross-check it). -/
def parseWeekAb (cs : List Char) : Option (List Char) :=
  match cs with
  | a :: b :: c :: r =>
    if weekAbbrs.contains (String.mk [a.toLower, b.toLower, c.toLower]) then some r else none
  | _ => none

/-- Whitespace in a strptime format string matches one or more whitespace
characters in the input (CPython replaces format whitespace by a greedy
run; the following directives never start with whitespace, so the maximal
run is the match). -/
def spaces1 (cs : List Char) : Option (List Char) :=
  let sp := cs.span pyIsSpace
  if sp.1 = [] then none else some sp.2

/-- Candidates for the `%d` directive, in the order of CPython's regex
alternation `3[01]|[12]\d|0[1-9]|[1-9]`; the continuation tries them in
order, which reproduces regex backtracking at this (only) branch point. -/
def dayCands (cs : List Char) : List (Nat × List Char) :=
  (match cs with
   | a :: b :: r =>
     (if a = '3' && (b = '0' || b = '1') then [(digitsToNat [a, b], r)] else []) ++
     (if (a = '1' || a = '2') && isAsciiDigit b then [(digitsToNat [a, b], r)] else []) ++
     (if a = '0' && ('1' ≤ b && b ≤ '9') then [(digitVal b, r)] else [])
   | _ => []) ++
  (match cs with
   | a :: r => if '1' ≤ a && a ≤ '9' then [(digitVal a, r)] else []
   | _ => [])

/-- Try day candidates in order against a continuation (regex backtracking
over the `%d` alternation). -/
def tryCands {α : Type} (k : Nat → List Char → Option α) : List (Nat × List Char) → Option α
  | [] => none
  | (d, r) :: t =>
    match k d r with
    | some v => some v
    | none => tryCands k t

/-- Parse `%Y`: exactly four digits. -/
def parseY4 (cs : List Char) : Option (Nat × List Char) :=
  match cs with
  | a :: b :: c :: d :: r =>
    if isAsciiDigit a && isAsciiDigit b && isAsciiDigit c && isAsciiDigit d then
      some (digitsToNat [a, b, c, d], r)
    else none
  | _ => none

/-- Tail of formats 1 and 2: `%b`, whitespace, `%d`, a comma, whitespace,
`%Y`, end of input (strptime rejects unconverted trailing data). Returns
(year, month, day). -/
def matchBDY (cs : List Char) : Option (Nat × Nat × Nat) :=
  match parseMonthAb cs with
  | none => none
  | some (m, r1) =>
    match spaces1 r1 with
    | none => none
    | some r2 =>
      tryCands
        (fun d r3 =>
          match r3 with
          | ',' :: r4 =>
            match spaces1 r4 with
            | none => none
            | some r5 =>
              match parseY4 r5 with
              | some (y, []) => some (y, m, d)
              | _ => none
          | _ => none)
        (dayCands r2)

/-- Format `'%b %d, %Y'` (e.g. `May 14, 2025`). -/
def matchFmt1 (cs : List Char) : Option (Nat × Nat × Nat) := matchBDY cs

/-- Format `'%a, %b %d, %Y'` (e.g. `Wed, May 14, 2025`). -/
def matchFmt2 (cs : List Char) : Option (Nat × Nat × Nat) :=
  match parseWeekAb cs with
  | some (',' :: r1) =>
    match spaces1 r1 with
    | some r2 => matchBDY r2
    | none => none
  | _ => none

/-- Format `'%d %b %Y'` (e.g. `14 May 2025`). -/
def matchFmt3 (cs : List Char) : Option (Nat × Nat × Nat) :=
  tryCands
    (fun d r1 =>
      match spaces1 r1 with
      | none => none
      | some r2 =>
        match parseMonthAb r2 with
        | none => none
        | some (m, r3) =>
          match spaces1 r3 with
          | none => none
          | some r4 =>
            match parseY4 r4 with
            | some (y, []) => some (y, m, d)
            | _ => none)
    (dayCands cs)

/-- Gregorian leap-year rule used by `datetime`. -/
def isLeap (y : Nat) : Bool := y % 4 = 0 && (y % 100 ≠ 0 || y % 400 = 0)

/-- Days in a month (month is 1-12 by construction of the parsers). -/
def daysInMonth (y m : Nat) : Nat :=
  if m = 2 then (if isLeap y then 29 else 28)
  else if m = 4 || m = 6 || m = 9 || m = 11 then 30
  else 31

/-- Validation performed by the `datetime` constructor: year within
MINYEAR..MAXYEAR and day within the month; a violation raises ValueError,
which `parse_date_robustly` catches and treats as a failed format. -/
def mkDateChecked (y m d : Nat) : Option PyDate :=
  if 1 ≤ y && y ≤ 9999 && d ≤ daysInMonth y m then some (PyDate.mk y m d) else none

/-- Python `str.strip()` on both ends. -/
def pyStrip (s : String) : List Char :=
  ((s.data.dropWhile pyIsSpace).reverse.dropWhile pyIsSpace).reverse

/-- Result of one `datetime.strptime` attempt: a regex failure and a
ValueError from the `datetime` constructor both surface as `none`, and
`parse_date_robustly` then falls through to the next format. -/
def strptimeTry (r : Option (Nat × Nat × Nat)) : Option PyDate :=
  match r with
  | some (y, m, d) => mkDateChecked y m d
  | none => none

/-- `parse_date_robustly` (ipo_api.py lines 150-166): strip, then try the
three formats in order, returning the first date that both matches and
passes `datetime` validation. -/
def parse_date_robustly (date_string : String) : Option PyDate :=
  let cs := pyStrip date_string
  match strptimeTry (matchFmt1 cs) with
  | some dt => some dt
  | none =>
    match strptimeTry (matchFmt2 cs) with
    | some dt => some dt
    | none => strptimeTry (matchFmt3 cs)

example : parse_date_robustly "May 14, 2025" = some (PyDate.mk 2025 5 14) := by rfl
example : parse_date_robustly " Wed, May 14, 2025 " = some (PyDate.mk 2025 5 14) := by rfl
example : parse_date_robustly "14 May 2025" = some (PyDate.mk 2025 5 14) := by rfl
example : parse_date_robustly "Feb 30, 2025" = none := by rfl
example : parse_date_robustly "garbage" = none := by rfl
example : matchIPORange "May 14, 2025toMay 16, 2025"
    = some ("May 14, 2025", "May 16, 2025") := by rfl
example : matchIPORange "May 14, 2025" = none := by rfl

/-- Last assignment of the loop of `get_ipo_status` (lines 177-181): later
pairs with the same label overwrite earlier ones. -/
def lastLabeled (details : List (String × String)) (label : String) : Option String :=
  details.foldl (fun acc d => if d.1 = label then some d.2 else acc) none

/-- Secondary Listing-Date check inside `get_ipo_status` (lines 213-220),
reached only when today is past the close date. Every path returns the
string Closed. -/
def listingClosedCheck (today : PyDate) (listingStr : Option String) : String :=
  match listingStr with
  | some ls =>
    if ls = "" then "Closed"
    else
      match searchDatePart ls with
      | some g =>
        match parse_date_robustly g with
        | some ld => if PyDate.le ld today = true then "Closed" else "Closed"
        | none => "Closed"
      | none => "Closed"
  | none => "Closed"

/-- `get_ipo_status` (ipo_api.py lines 169-223) over a pair list of labels
and values; `today` stands for `date.today()`.  The values of `ipo_details`
rows are strings as produced by the HTML table parser (parser.py builds each
row from cell texts), so the pair values are modelled as strings. -/
def get_ipo_status (today : PyDate) (ipo_details : List (String × String)) : String :=
  match lastLabeled ipo_details "IPO Date" with
  | none => "Unknown"
  | some s =>
    if s = "" then "Unknown"
    else
      match
        (match matchIPORange s with
         | some (g1, g2) => (parse_date_robustly g1, parse_date_robustly g2)
         | none => (parse_date_robustly s, parse_date_robustly s)) with
      | (some o, some c) =>
        if PyDate.lt today o = true then "Upcoming"
        else if (PyDate.le o today && PyDate.le today c) = true then "Open"
        else if PyDate.lt c today = true then
          listingClosedCheck today (lastLabeled ipo_details "Listing Date")
        else "Unknown"
      | (_, _) => "Unknown"

/-- Variant of `get_ipo_status` with the Listing-Date branch (lines 213-219)
removed: past the close date it returns Closed directly. -/
def get_ipo_status_noListing (today : PyDate) (ipo_details : List (String × String)) : String :=
  match lastLabeled ipo_details "IPO Date" with
  | none => "Unknown"
  | some s =>
    if s = "" then "Unknown"
    else
      match
        (match matchIPORange s with
         | some (g1, g2) => (parse_date_robustly g1, parse_date_robustly g2)
         | none => (parse_date_robustly s, parse_date_robustly s)) with
      | (some o, some c) =>
        if PyDate.lt today o = true then "Upcoming"
        else if (PyDate.le o today && PyDate.le today c) = true then "Open"
        else if PyDate.lt c today = true then "Closed"
        else "Unknown"
      | (_, _) => "Unknown"

/-- Open/close dates the code derives from the raw IPO Date value: the
anchored range regex is tried first, otherwise the single parsed date serves
as both ends; an empty value short-circuits (it is falsy on line 183). -/
def ipoDatesOf (s : String) : Option (PyDate × PyDate) :=
  if s = "" then none
  else
    match matchIPORange s with
    | some (g1, g2) =>
      match parse_date_robustly g1, parse_date_robustly g2 with
      | some o, some c => some (o, c)
      | _, _ => none
    | none =>
      match parse_date_robustly s with
      | some d => some (d, d)
      | none => none

example : get_ipo_status (PyDate.mk 2029 12 31)
    [("IPO Date", "Jan 1, 2030toJan 3, 2030")] = "Upcoming" := by rfl
example : get_ipo_status (PyDate.mk 2030 1 2)
    [("IPO Date", "Jan 1, 2030toJan 3, 2030")] = "Open" := by rfl
example : get_ipo_status (PyDate.mk 2030 1 4)
    [("IPO Date", "Jan 1, 2030toJan 3, 2030")] = "Closed" := by rfl
example : get_ipo_status (PyDate.mk 2030 1 4)
    [("IPO Date", "not a date")] = "Unknown" := by rfl
example : get_ipo_status (PyDate.mk 2030 1 4)
    [("IPO Date", "Jan 1, 2030toJan 3, 2030"), ("Listing Date", "Jan 8, 2030")]
    = "Closed" := by rfl

/-- One line of the per-year detail cache `ipo_cache[year]['ipo_data'][p]`:
the modification time observed at load time and the loaded document. -/
structure DetailEntry where
  mtime : Int
  data : Json
deriving Repr

/-- One year's cache entry `ipo_cache[year]`. -/
structure YearEntry where
  meta_mtime : Int
  meta_data : List Json
  ipo_data : List (String × DetailEntry)
deriving Repr

/-- The in-process cache `ipo_cache`, keyed by year. -/
def IpoCache := List (Int × YearEntry)

/-- Filesystem snapshot seen by one request.  Modification times are
modelled by `Int` (only their ordering matters).  `metaLoad` is the result
of `json.load` on `current_meta.json` followed by the slug-adding loop of
lines 250-252: `some` items on success, `none` when reading, decoding or
the slug loop raises (the slug computation itself plays no role in the
claims).  `detailLoad` is the result of `json.load` on a record file,
`none` when reading or decoding raises. -/
structure FS where
  years : List Int
  yearDirPresent : Int → Bool
  metaPresent : Int → Bool
  metaMtime : Int → Int
  metaLoad : Int → Option (List Json)
  detailPresent : String → Bool
  detailMtime : String → Int
  detailLoad : String → Option Json

/-- `load_year_data` (ipo_api.py lines 226-265): returns the updated cache
and the boolean result.  The meta data is reloaded when the year is absent
from the cache or the stored timestamp is strictly older than the file's;
on a loader failure the cache is untouched and False is returned; storing
resets `ipo_data` to the empty dict (line 256). -/
def load_year_data (fs : FS) (cache : IpoCache) (year : Int) : IpoCache × Bool :=
  if fs.yearDirPresent year = false then (cache, false)
  else if fs.metaPresent year = false then (cache, false)
  else
    let m := fs.metaMtime year
    let needReload :=
      match assocFind year cache with
      | none => true
      | some e => decide (e.meta_mtime < m)
    if needReload then
      match fs.metaLoad year with
      | some md => (assocSet year (YearEntry.mk m md []) cache, true)
      | none => (cache, false)
    else (cache, true)

/-- `get_ipo_detail_data` (ipo_api.py lines 267-309): ensure the year's meta
entry exists (loading it if missing), check the detail file's existence,
then serve from the per-record cache line unless the stored timestamp is
strictly older than the file's, in which case the file is re-read and the
line replaced.  All loader failures return `none` and leave the line
untouched.  The two inner `none` fallbacks are unreachable (in Python they
would be a KeyError): the year entry exists after a successful ensure, and
a non-reloading hit implies the line exists. -/
def get_ipo_detail_data (fs : FS) (cache : IpoCache) (year : Int) (path : String) :
    IpoCache × Option Json :=
  let ensured : IpoCache × Bool :=
    match assocFind year cache with
    | some _ => (cache, true)
    | none => load_year_data fs cache year
  if ensured.2 = false then (ensured.1, none)
  else if fs.detailPresent path = false then (ensured.1, none)
  else
    let m := fs.detailMtime path
    match assocFind year ensured.1 with
    | none => (ensured.1, none)
    | some ye =>
      let needLoad :=
        match assocFind path ye.ipo_data with
        | none => true
        | some de => decide (de.mtime < m)
      if needLoad then
        match fs.detailLoad path with
        | none => (ensured.1, none)
        | some d =>
          (assocSet year
            (YearEntry.mk ye.meta_mtime ye.meta_data
              (assocSet path (DetailEntry.mk m d) ye.ipo_data)) ensured.1,
           some d)
      else
        match assocFind path ye.ipo_data with
        | some de => (ensured.1, some de.data)
        | none => (ensured.1, none)

/-- Python truthiness of a JSON value. -/
def truthy : Json → Bool
  | Json.null => false
  | Json.bool b => b
  | Json.num n => decide (n ≠ 0)
  | Json.str s => decide (s ≠ "")
  | Json.arr xs => !xs.isEmpty
  | Json.obj fields => !fields.isEmpty

/-- Character-list test: does `n` start `h`. -/
def chPre : List Char → List Char → Bool
  | [], _ => true
  | _ :: _, [] => false
  | a :: as, b :: bs => a = b && chPre as bs

/-- Character-list substring test. -/
def chSub (n : List Char) : List Char → Bool
  | [] => chPre n []
  | b :: bs => chPre n (b :: bs) || chSub n bs

/-- Python substring test `n in h` on strings. -/
def strHasSub (n h : String) : Bool := chSub n.data h.data

/-- Python `k in j`: key test on a dict, membership on a list (string
elements only can equal a string), substring test on a string; on other
values CPython raises TypeError, modelled by `error`. -/
def containsPy (j : Json) (k : String) : Except Unit Bool :=
  match j with
  | Json.obj fields => Except.ok (assocFind k fields).isSome
  | Json.arr xs =>
    Except.ok (xs.any (fun x => match x with | Json.str s => decide (s = k) | _ => false))
  | Json.str s => Except.ok (strHasSub k s)
  | _ => Except.error ()

/-- Python `j[k]` with a string key: KeyError when missing, TypeError on
non-dicts; both uncaught exceptions are modelled by `error`. -/
def getItemStr (j : Json) (k : String) : Except Unit Json :=
  match j with
  | Json.obj fields =>
    match assocFind k fields with
    | some v => Except.ok v
    | none => Except.error ()
  | _ => Except.error ()

/-- Decode the stored `ipo_details` value into the label/value pairs that
`get_ipo_status` iterates.  The corpus stores each row as an array whose
first two cells are strings (parser.py builds rows from table cell texts);
any other shape is conservatively treated as the type error the row
accesses `detail[0]`/`detail[1]` would raise, and the claims about the
listing endpoints restrict the documents to the pair shape. -/
def toPairs (j : Json) : Option (List (String × String)) :=
  match j with
  | Json.arr items =>
    items.mapM (fun it =>
      match it with
      | Json.arr (Json.str a :: Json.str b :: _) => some (a, b)
      | _ => none)
  | _ => none

/-- Status computation of the listing endpoints (for example lines 417-423):
Unknown for a failed load, falsy data or a missing `ipo_details` key, else
`get_ipo_status` of the decoded pairs; `error` models an uncaught exception
inside the computation. -/
def computeStatusE (today : PyDate) (dOpt : Option Json) : Except Unit String :=
  match dOpt with
  | none => Except.ok "Unknown"
  | some d =>
    if truthy d = false then Except.ok "Unknown"
    else
      match containsPy d "ipo_details" with
      | Except.error _ => Except.error ()
      | Except.ok false => Except.ok "Unknown"
      | Except.ok true =>
        match getItemStr d "ipo_details" with
        | Except.error _ => Except.error ()
        | Except.ok v =>
          match toPairs v with
          | some prs => Except.ok (get_ipo_status today prs)
          | none => Except.error ()

/-- ASCII lowering, Python `str.lower()` on the ASCII strings involved. -/
def lowerStr (s : String) : String := String.mk (s.data.map Char.toLower)

/-- Python `d.get(k)` on the dict `item`, with `None` for a missing key; the
non-dict fallback is unreachable at its call sites (item subscripts have
already raised there). -/
def jgetOrNull (item : Json) (k : String) : Json :=
  match item with
  | Json.obj fields =>
    match assocFind k fields with
    | some v => v
    | none => Json.null
  | _ => Json.null

/-- List-endpoint response entry (for example lines 469-477). -/
def mkListEnvelope (item : Json) (year : Int) (status : String) : Json :=
  Json.obj [("name", jgetOrNull item "name"), ("slug", jgetOrNull item "slug"),
            ("url", jgetOrNull item "url"), ("html_path", jgetOrNull item "html_path"),
            ("json_path", jgetOrNull item "json_path"), ("year", Json.num year),
            ("status", Json.str status)]

/-- Endpoint outcome other than a normal JSON list: a deliberate abort or an
uncaught exception (HTTP 500 from the framework). -/
inductive ApiErr where
  | abort404 : ApiErr
  | abort400 : ApiErr
  | crash : ApiErr
deriving DecidableEq, Repr

/-- Loop body of `get_ipos_by_year` (lines 460-477): the detail path is read
with the subscript `ipo_meta['json_path']`, so a missing key or non-dict
item raises; a non-string path would raise inside `os.path.flatten`. -/
def yearLoopBody (fs : FS) (today : PyDate) (year : Int)
    (acc : IpoCache × List Json) (item : Json) : Except Unit (IpoCache × List Json) :=
  match getItemStr item "json_path" with
  | Except.error _ => Except.error ()
  | Except.ok jpv =>
    match jpv with
    | Json.str p =>
      match get_ipo_detail_data fs acc.1 year p with
      | (c', dOpt) =>
        match computeStatusE today dOpt with
        | Except.error _ => Except.error ()
        | Except.ok st => Except.ok (c', acc.2 ++ [mkListEnvelope item year st])
    | _ => Except.error ()

/-- `get_ipos_by_year` (lines 442-483) after the response-cache miss on the
distributed tier: load the year (404 on failure) and build one envelope per
meta entry. -/
def get_ipos_by_year_core (fs : FS) (cache : IpoCache) (today : PyDate) (year : Int) :
    Except ApiErr (IpoCache × List Json) :=
  match load_year_data fs cache year with
  | (_, false) => Except.error ApiErr.abort404
  | (c1, true) =>
    match assocFind year c1 with
    | none => Except.error ApiErr.crash
    | some ye =>
      match ye.meta_data.foldlM (yearLoopBody fs today year) (c1, []) with
      | Except.ok r => Except.ok r
      | Except.error _ => Except.error ApiErr.crash

/-- Loop body of `get_all_ipos` (lines 408-433): the path is read with
`ipo_meta.get('json_path')` and a falsy value skips the record. -/
def allLoopBody (fs : FS) (today : PyDate) (year : Int)
    (acc : IpoCache × List Json) (item : Json) : Except Unit (IpoCache × List Json) :=
  match item with
  | Json.obj fields =>
    match assocFind "json_path" fields with
    | none => Except.ok acc
    | some jpv =>
      if truthy jpv = false then Except.ok acc
      else
        match jpv with
        | Json.str p =>
          match get_ipo_detail_data fs acc.1 year p with
          | (c', dOpt) =>
            match computeStatusE today dOpt with
            | Except.error _ => Except.error ()
            | Except.ok st => Except.ok (c', acc.2 ++ [mkListEnvelope item year st])
        | _ => Except.error ()
  | _ => Except.error ()

/-- Descending insertion, for `sorted(years, reverse=True)`. -/
def insertDesc (x : Int) : List Int → List Int
  | [] => [x]
  | y :: t => if x ≥ y then x :: y :: t else y :: insertDesc x t

/-- Python `sorted(l, reverse=True)` on integer years. -/
def sortDesc (l : List Int) : List Int := l.foldr insertDesc []

/-- Year-level body of `get_all_ipos` (lines 406-433): a year whose meta
fails to load is skipped whole. -/
def allYearBody (fs : FS) (today : PyDate)
    (acc : IpoCache × List Json) (year : Int) : Except Unit (IpoCache × List Json) :=
  match load_year_data fs acc.1 year with
  | (c1, false) => Except.ok (c1, acc.2)
  | (c1, true) =>
    match assocFind year c1 with
    | none => Except.error ()
    | some ye => ye.meta_data.foldlM (allLoopBody fs today year) (c1, acc.2)

/-- `get_all_ipos` (lines 382-439) after the response-cache miss: iterate
the numeric year directories newest first. -/
def get_all_ipos_core (fs : FS) (cache : IpoCache) (today : PyDate) :
    Except ApiErr (IpoCache × List Json) :=
  match (sortDesc fs.years).foldlM (allYearBody fs today) (cache, []) with
  | Except.ok r => Except.ok r
  | Except.error _ => Except.error ApiErr.crash

/-- Loop body of `get_ipos_by_status` (lines 609-627): detail path read by
subscript as in `get_ipos_by_year`, then a case-insensitive status filter. -/
def statusLoopBody (fs : FS) (today : PyDate) (stLower : String) (year : Int)
    (acc : IpoCache × List Json) (item : Json) : Except Unit (IpoCache × List Json) :=
  match getItemStr item "json_path" with
  | Except.error _ => Except.error ()
  | Except.ok jpv =>
    match jpv with
    | Json.str p =>
      match get_ipo_detail_data fs acc.1 year p with
      | (c', dOpt) =>
        match computeStatusE today dOpt with
        | Except.error _ => Except.error ()
        | Except.ok st =>
          if lowerStr st = stLower then
            Except.ok (c', acc.2 ++ [mkListEnvelope item year st])
          else Except.ok (c', acc.2)
    | _ => Except.error ()

/-- Year-level body of `get_ipos_by_status`. -/
def statusYearBody (fs : FS) (today : PyDate) (stLower : String)
    (acc : IpoCache × List Json) (year : Int) : Except Unit (IpoCache × List Json) :=
  match load_year_data fs acc.1 year with
  | (c1, false) => Except.ok (c1, acc.2)
  | (c1, true) =>
    match assocFind year c1 with
    | none => Except.error ()
    | some ye => ye.meta_data.foldlM (statusLoopBody fs today stLower year) (c1, acc.2)

/-- `get_ipos_by_status` (lines 588-628): validate the status token (400 on
an unknown one), then iterate all years newest first with the filter. -/
def get_ipos_by_status_core (fs : FS) (cache : IpoCache) (today : PyDate)
    (status_type : String) : Except ApiErr (IpoCache × List Json) :=
  let low := lowerStr status_type
  if (low = "upcoming" || low = "open" || low = "closed") = false then
    Except.error ApiErr.abort400
  else
    match (sortDesc fs.years).foldlM (statusYearBody fs today low) (cache, []) with
    | Except.ok r => Except.ok r
    | Except.error _ => Except.error ApiErr.crash

/-- Core of `GET /api/ipo/details/{slug}` after slug resolution and after
the response-cache miss (ipo_api.py lines 533-545): load the detail body,
abort 500 when it is missing or falsy, compute the status and assign
`ipo_data['status'] = status`.  The body returned by `get_ipo_detail_data`
is the very object stored in the cache line, so the assignment also updates
the line; the functional rendering writes the updated document back into
the line.  `error` models both the 500 abort and an uncaught exception. -/
def detailRequestCore (fs : FS) (cache : IpoCache) (today : PyDate) (year : Int)
    (path : String) : IpoCache × Except Unit Json :=
  match get_ipo_detail_data fs cache year path with
  | (c1, none) => (c1, Except.error ())
  | (c1, some d) =>
    if truthy d = false then (c1, Except.error ())
    else
      match d with
      | Json.obj fields =>
        let st : Except Unit String :=
          match assocFind "ipo_details" fields with
          | some v =>
            match toPairs v with
            | some prs => Except.ok (get_ipo_status today prs)
            | none => Except.error ()
          | none => Except.ok "Unknown"
        match st with
        | Except.error _ => (c1, Except.error ())
        | Except.ok stv =>
          let d2 := Json.obj (assocSet "status" (Json.str stv) fields)
          match assocFind year c1 with
          | none => (c1, Except.error ())
          | some ye =>
            match assocFind path ye.ipo_data with
            | none => (c1, Except.error ())
            | some de =>
              (assocSet year
                (YearEntry.mk ye.meta_mtime ye.meta_data
                  (assocSet path (DetailEntry.mk de.mtime d2) ye.ipo_data)) c1,
               Except.ok d2)
      | _ => (c1, Except.error ())

/-- C4: projecting the two paths a.b and a.c over the document with keys
b, c, d under a yields exactly the object with only b and c under a: the
shared prefix is merged, the second path does not overwrite the first
sub-tree, and no unrequested key appears. -/
theorem claim_C4 :
    projectFields
      (Json.obj [("a", Json.obj [("b", Json.num 1), ("c", Json.num 2), ("d", Json.num 3)])])
      ["a.b", "a.c"]
    = some (Json.obj [("a", Json.obj [("b", Json.num 1), ("c", Json.num 2)])]) := by
  rfl

/-- C3: evaluation of the projection at the claimed inputs.  The
reconstruction loop re-processes the numeric segment as an object key
inside the padded array element, so the path items.0.name over the
one-element document yields an extra nesting level keyed by the string 0,
not the claimed mirror of the original structure; on the empty-items
document the same shape appears with a null leaf.  No exception occurs
(both results are `some`). -/
theorem claim_C3 :
    projectFields (Json.obj [("items", Json.arr [Json.obj [("name", Json.str "x")]])])
      ["items.0.name"]
      = some (Json.obj [("items",
          Json.arr [Json.obj [("0", Json.obj [("name", Json.str "x")])]])]) ∧
    projectFields (Json.obj [("items", Json.arr [])]) ["items.0.name"]
      = some (Json.obj [("items",
          Json.arr [Json.obj [("0", Json.obj [("name", Json.null)])]])]) ∧
    projectFields (Json.obj [("items", Json.arr [Json.obj [("name", Json.str "x")]])])
      ["items.0.name"]
      ≠ some (Json.obj [("items", Json.arr [Json.obj [("name", Json.str "x")]])]) := by
  refine ⟨rfl, rfl, ?_⟩
  intro h
  rw [show projectFields
      (Json.obj [("items", Json.arr [Json.obj [("name", Json.str "x")]])]) ["items.0.name"]
      = some (Json.obj [("items",
          Json.arr [Json.obj [("0", Json.obj [("name", Json.str "x")])]])]) from rfl] at h
  simp at h

/-- Helper: every path through the secondary Listing-Date check returns the
string Closed. -/
theorem listingClosedCheck_eq (today : PyDate) (listingStr : Option String) :
    listingClosedCheck today listingStr = "Closed" := by
  unfold listingClosedCheck
  cases listingStr with
  | none => rfl
  | some ls =>
    by_cases hls : ls = ""
    · simp [hls]
    · simp only [if_neg hls]
      cases searchDatePart ls with
      | none => rfl
      | some g =>
        cases h : parse_date_robustly g with
        | none => simp [h]
        | some ld => simp [h]

/-- C7: the secondary Listing-Date check in `get_ipo_status` never changes
the returned status; the function is extensionally equal to the variant
with the listing branch removed. -/
theorem claim_C7 (today : PyDate) (details : List (String × String)) :
    get_ipo_status today details = get_ipo_status_noListing today details := by
  unfold get_ipo_status get_ipo_status_noListing
  cases lastLabeled details "IPO Date" with
  | none => rfl
  | some s =>
    by_cases hs : s = ""
    · simp [hs]
    · simp only [if_neg hs]
      generalize (match matchIPORange s with
         | some (g1, g2) => (parse_date_robustly g1, parse_date_robustly g2)
         | none => (parse_date_robustly s, parse_date_robustly s)) = pr
      obtain ⟨oo, cc⟩ := pr
      cases oo <;> cases cc <;> simp [listingClosedCheck_eq]

/-- Helper: if today is neither before the open date nor inside the open
range, it is strictly past the close date. -/
theorem pydate_closed_case {today o c : PyDate}
    (h1 : PyDate.lt today o = false)
    (h2 : (PyDate.le o today && PyDate.le today c) = false) :
    PyDate.lt c today = true := by
  cases today with
  | mk ty tm td =>
    cases o with
    | mk oy om od =>
      cases c with
      | mk cy cm cd =>
        simp only [PyDate.lt, PyDate.le, PyDate.mk.injEq, Bool.and_eq_false_iff,
          Bool.or_eq_false_iff, decide_eq_false_iff_not, decide_eq_true_eq, not_or,
          not_and, not_lt] at h1 h2 ⊢
        rcases h2 with h2 | h2 <;> omega

/-- C6: `get_ipo_status` returns Unknown when no IPO Date pair is present
or its value fails to parse (as a to-joined range or a single date, under
the ordered format list); otherwise it follows the documented ladder:
Upcoming before the open date, Open inside the range, Closed past the
close date. -/
theorem claim_C6 (today : PyDate) (details : List (String × String)) :
    (lastLabeled details "IPO Date" = none → get_ipo_status today details = "Unknown") ∧
    (∀ s, lastLabeled details "IPO Date" = some s → ipoDatesOf s = none →
      get_ipo_status today details = "Unknown") ∧
    (∀ s o c, lastLabeled details "IPO Date" = some s → ipoDatesOf s = some (o, c) →
      get_ipo_status today details =
        (if PyDate.lt today o = true then "Upcoming"
         else if (PyDate.le o today && PyDate.le today c) = true then "Open"
         else "Closed")) := by
  refine ⟨?_, ?_, ?_⟩
  · intro h
    unfold get_ipo_status
    rw [h]
  · intro s hs hd
    unfold get_ipo_status
    rw [hs]
    unfold ipoDatesOf at hd
    by_cases hse : s = ""
    · simp [hse]
    · simp only [if_neg hse] at hd ⊢
      cases hm : matchIPORange s with
      | some g =>
        obtain ⟨g1, g2⟩ := g
        rw [hm] at hd
        cases hp1 : parse_date_robustly g1 with
        | none => simp [hp1] at hd ⊢
        | some o =>
          cases hp2 : parse_date_robustly g2 with
          | none => simp [hp1, hp2] at hd ⊢
          | some c => simp [hp1, hp2] at hd
      | none =>
        rw [hm] at hd
        cases hp : parse_date_robustly s with
        | none => simp [hp]
        | some d => simp [hp] at hd
  · intro s o c hs hd
    unfold get_ipo_status
    rw [hs]
    unfold ipoDatesOf at hd
    by_cases hse : s = ""
    · simp [hse] at hd
    · simp only [if_neg hse] at hd ⊢
      cases hm : matchIPORange s with
      | some g =>
        obtain ⟨g1, g2⟩ := g
        rw [hm] at hd
        cases hp1 : parse_date_robustly g1 with
        | none => simp [hp1] at hd
        | some o2 =>
          cases hp2 : parse_date_robustly g2 with
          | none => simp [hp1, hp2] at hd
          | some c2 =>
            simp only [hp1, hp2] at hd
            simp only [Option.some.injEq, Prod.mk.injEq] at hd
            simp only [hp1, hp2]
            rw [← hd.1, ← hd.2]
            by_cases hlt : PyDate.lt today o2 = true
            · simp [hlt]
            · simp only [Bool.not_eq_true] at hlt
              by_cases hop : (PyDate.le o2 today && PyDate.le today c2) = true
              · simp [hlt, hop]
              · simp only [Bool.not_eq_true] at hop
                simp [hlt, hop, pydate_closed_case hlt hop, listingClosedCheck_eq]
      | none =>
        rw [hm] at hd
        cases hp : parse_date_robustly s with
        | none => simp [hp] at hd
        | some d =>
          simp only [hp] at hd
          simp only [Option.some.injEq, Prod.mk.injEq] at hd
          simp only [hp]
          rw [← hd.1, ← hd.2]
          by_cases hlt : PyDate.lt today d = true
          · simp [hlt]
          · simp only [Bool.not_eq_true] at hlt
            by_cases hop : (PyDate.le d today && PyDate.le today d) = true
            · simp [hlt, hop]
            · simp only [Bool.not_eq_true] at hop
              simp [hlt, hop, pydate_closed_case hlt hop, listingClosedCheck_eq]

/-- Witness for C6 at a concrete range and dates inside, before and after
the range, and at a malformed value. -/
theorem claim_C6_witness :
    get_ipo_status (PyDate.mk 2030 1 2) [("IPO Date", "Jan 1, 2030toJan 3, 2030")] = "Open" ∧
    get_ipo_status (PyDate.mk 2029 12 31) [("IPO Date", "Jan 1, 2030toJan 3, 2030")]
      = "Upcoming" ∧
    get_ipo_status (PyDate.mk 2030 1 4) [("IPO Date", "Jan 1, 2030toJan 3, 2030")] = "Closed" ∧
    get_ipo_status (PyDate.mk 2030 1 4) [("IPO Date", "not a date")] = "Unknown" := by
  refine ⟨?_, ?_, ?_, ?_⟩
  · have h := (claim_C6 (PyDate.mk 2030 1 2) [("IPO Date", "Jan 1, 2030toJan 3, 2030")]).2.2
      "Jan 1, 2030toJan 3, 2030" (PyDate.mk 2030 1 1) (PyDate.mk 2030 1 3) rfl rfl
    rw [h]; rfl
  · have h := (claim_C6 (PyDate.mk 2029 12 31) [("IPO Date", "Jan 1, 2030toJan 3, 2030")]).2.2
      "Jan 1, 2030toJan 3, 2030" (PyDate.mk 2030 1 1) (PyDate.mk 2030 1 3) rfl rfl
    rw [h]; rfl
  · have h := (claim_C6 (PyDate.mk 2030 1 4) [("IPO Date", "Jan 1, 2030toJan 3, 2030")]).2.2
      "Jan 1, 2030toJan 3, 2030" (PyDate.mk 2030 1 1) (PyDate.mk 2030 1 3) rfl rfl
    rw [h]; rfl
  · exact (claim_C6 (PyDate.mk 2030 1 4) [("IPO Date", "not a date")]).2.1 "not a date" rfl rfl

/-- Helper: a cached detail line whose stored timestamp is at least the
file's current timestamp is served as is, with no cache change. -/
theorem gdd_fresh_hit (fs : FS) (cache : IpoCache) (year : Int) (path : String)
    (ye : YearEntry) (de : DetailEntry)
    (h1 : assocFind year cache = some ye)
    (h2 : assocFind path ye.ipo_data = some de)
    (h3 : fs.detailPresent path = true)
    (h4 : fs.detailMtime path ≤ de.mtime) :
    get_ipo_detail_data fs cache year path = (cache, some de.data) := by
  have h5 : ¬(de.mtime < fs.detailMtime path) := not_lt.mpr h4
  simp [get_ipo_detail_data, h1, h2, h3, h5]

/-- Helper: a stale cached detail line is replaced by the freshly loaded
content stamped with the file's current timestamp. -/
theorem gdd_stale_load (fs : FS) (cache : IpoCache) (year : Int) (path : String)
    (ye : YearEntry) (de : DetailEntry) (d : Json)
    (h1 : assocFind year cache = some ye)
    (h2 : assocFind path ye.ipo_data = some de)
    (h3 : fs.detailPresent path = true)
    (h4 : de.mtime < fs.detailMtime path)
    (h5 : fs.detailLoad path = some d) :
    get_ipo_detail_data fs cache year path =
      (assocSet year
        (YearEntry.mk ye.meta_mtime ye.meta_data
          (assocSet path (DetailEntry.mk (fs.detailMtime path) d) ye.ipo_data)) cache,
       some d) := by
  simp [get_ipo_detail_data, h1, h2, h3, h4, h5]

/-- Helper: with no cached line for the record, the detail read consults the
file and returns whatever the loader yields. -/
theorem gdd_no_line (fs : FS) (cache : IpoCache) (year : Int) (path : String)
    (ye : YearEntry)
    (h1 : assocFind year cache = some ye)
    (h2 : assocFind path ye.ipo_data = none)
    (h3 : fs.detailPresent path = true) :
    (get_ipo_detail_data fs cache year path).2 = fs.detailLoad path := by
  cases h5 : fs.detailLoad path with
  | none => simp [get_ipo_detail_data, h1, h2, h3, h5]
  | some d => simp [get_ipo_detail_data, h1, h2, h3, h5]

/-- Helper: a cached year index whose stored timestamp is at least the meta
file's current timestamp is kept, and the call reports success. -/
theorem lyd_fresh (fs : FS) (cache : IpoCache) (year : Int) (ye : YearEntry)
    (h1 : fs.yearDirPresent year = true)
    (h2 : fs.metaPresent year = true)
    (h3 : assocFind year cache = some ye)
    (h4 : fs.metaMtime year ≤ ye.meta_mtime) :
    load_year_data fs cache year = (cache, true) := by
  have h5 : ¬(ye.meta_mtime < fs.metaMtime year) := not_lt.mpr h4
  simp [load_year_data, h1, h2, h3, h5]

/-- Helper: a stale year index is replaced by the freshly loaded meta data
stamped with the current timestamp, with an empty detail cache. -/
theorem lyd_reload (fs : FS) (cache : IpoCache) (year : Int) (ye : YearEntry)
    (md : List Json)
    (h1 : fs.yearDirPresent year = true)
    (h2 : fs.metaPresent year = true)
    (h3 : assocFind year cache = some ye)
    (h4 : ye.meta_mtime < fs.metaMtime year)
    (h5 : fs.metaLoad year = some md) :
    load_year_data fs cache year =
      (assocSet year (YearEntry.mk (fs.metaMtime year) md []) cache, true) := by
  simp [load_year_data, h1, h2, h3, h4, h5]

/-- C1: while a cached line's stored timestamp is not less than the file's
current timestamp, the cache returns the stored body and is unchanged (so
repeated reads return identical content, and the loader is never consulted:
the statement holds for every `detailLoad`); when the current timestamp is
strictly greater, the very next call re-reads, stores the current timestamp
with the new content, and returns the new content.  The same discipline
holds for the year index in `load_year_data`. -/
theorem claim_C1 (fs : FS) (cache : IpoCache) (year : Int) (path : String) :
    (∀ ye de, assocFind year cache = some ye → assocFind path ye.ipo_data = some de →
      fs.detailPresent path = true → fs.detailMtime path ≤ de.mtime →
      get_ipo_detail_data fs cache year path = (cache, some de.data)) ∧
    (∀ ye de d, assocFind year cache = some ye → assocFind path ye.ipo_data = some de →
      fs.detailPresent path = true → de.mtime < fs.detailMtime path →
      fs.detailLoad path = some d →
      get_ipo_detail_data fs cache year path =
        (assocSet year
          (YearEntry.mk ye.meta_mtime ye.meta_data
            (assocSet path (DetailEntry.mk (fs.detailMtime path) d) ye.ipo_data)) cache,
         some d)) ∧
    (∀ ye, fs.yearDirPresent year = true → fs.metaPresent year = true →
      assocFind year cache = some ye → fs.metaMtime year ≤ ye.meta_mtime →
      load_year_data fs cache year = (cache, true)) ∧
    (∀ ye md, fs.yearDirPresent year = true → fs.metaPresent year = true →
      assocFind year cache = some ye → ye.meta_mtime < fs.metaMtime year →
      fs.metaLoad year = some md →
      load_year_data fs cache year =
        (assocSet year (YearEntry.mk (fs.metaMtime year) md []) cache, true)) := by
  refine ⟨?_, ?_, ?_, ?_⟩
  · intro ye de h1 h2 h3 h4
    exact gdd_fresh_hit fs cache year path ye de h1 h2 h3 h4
  · intro ye de d h1 h2 h3 h4 h5
    exact gdd_stale_load fs cache year path ye de d h1 h2 h3 h4 h5
  · intro ye h1 h2 h3 h4
    exact lyd_fresh fs cache year ye h1 h2 h3 h4
  · intro ye md h1 h2 h3 h4 h5
    exact lyd_reload fs cache year ye md h1 h2 h3 h4 h5

/-- C2: every loader failure leaves the cache untouched and reports failure
to the caller: `load_year_data` returns False on a missing directory,
missing meta file or failing meta load, and `get_ipo_detail_data` returns
None on a missing detail file or failing detail load, whether or not a line
was cached; the previously cached data is retained in all cases. -/
theorem claim_C2 (fs : FS) (cache : IpoCache) (year : Int) (path : String) :
    (fs.yearDirPresent year = false → load_year_data fs cache year = (cache, false)) ∧
    (fs.yearDirPresent year = true → fs.metaPresent year = false →
      load_year_data fs cache year = (cache, false)) ∧
    (fs.yearDirPresent year = true → fs.metaPresent year = true →
      assocFind year cache = none → fs.metaLoad year = none →
      load_year_data fs cache year = (cache, false)) ∧
    (∀ ye, fs.yearDirPresent year = true → fs.metaPresent year = true →
      assocFind year cache = some ye → ye.meta_mtime < fs.metaMtime year →
      fs.metaLoad year = none →
      load_year_data fs cache year = (cache, false)) ∧
    (∀ ye, assocFind year cache = some ye → fs.detailPresent path = false →
      get_ipo_detail_data fs cache year path = (cache, none)) ∧
    (∀ ye, assocFind year cache = some ye → fs.detailPresent path = true →
      assocFind path ye.ipo_data = none → fs.detailLoad path = none →
      get_ipo_detail_data fs cache year path = (cache, none)) ∧
    (∀ ye de, assocFind year cache = some ye → fs.detailPresent path = true →
      assocFind path ye.ipo_data = some de → de.mtime < fs.detailMtime path →
      fs.detailLoad path = none →
      get_ipo_detail_data fs cache year path = (cache, none)) := by
  refine ⟨?_, ?_, ?_, ?_, ?_, ?_, ?_⟩
  · intro h1; simp [load_year_data, h1]
  · intro h1 h2; simp [load_year_data, h1, h2]
  · intro h1 h2 h3 h4; simp [load_year_data, h1, h2, h3, h4]
  · intro ye h1 h2 h3 h4 h5; simp [load_year_data, h1, h2, h3, h4, h5]
  · intro ye h1 h2; simp [get_ipo_detail_data, h1, h2]
  · intro ye h1 h2 h3 h4; simp [get_ipo_detail_data, h1, h2, h3, h4]
  · intro ye de h1 h2 h3 h4 h5; simp [get_ipo_detail_data, h1, h2, h3, h4, h5]

/-- C8: when `load_year_data` observes a strictly newer index timestamp and
re-reads the meta file, the stored year entry's per-record detail cache is
reset to empty, so a subsequent detail read for the partition consults the
disk loader. -/
theorem claim_C8 (fs : FS) (cache : IpoCache) (year : Int) :
    ∀ ye md, fs.yearDirPresent year = true → fs.metaPresent year = true →
      assocFind year cache = some ye → ye.meta_mtime < fs.metaMtime year →
      fs.metaLoad year = some md →
      load_year_data fs cache year =
        (assocSet year (YearEntry.mk (fs.metaMtime year) md []) cache, true) ∧
      (∀ ye2, assocFind year
          (assocSet year (YearEntry.mk (fs.metaMtime year) md []) cache) = some ye2 →
        ye2.ipo_data = []) ∧
      (∀ p, fs.detailPresent p = true →
        (get_ipo_detail_data fs
          (assocSet year (YearEntry.mk (fs.metaMtime year) md []) cache) year p).2
          = fs.detailLoad p) := by
  intro ye md h1 h2 h3 h4 h5
  have hfind := assocFind_assocSet_self year (YearEntry.mk (fs.metaMtime year) md []) cache
  refine ⟨lyd_reload fs cache year ye md h1 h2 h3 h4 h5, ?_, ?_⟩
  · intro ye2 h6
    rw [hfind] at h6
    cases h6
    rfl
  · intro p hp
    exact gdd_no_line fs _ year p _ hfind rfl hp

/-- Fixture filesystem: one year 2025 with meta mtime 5 and empty meta list,
one record file `p` with mtime 7 and content 2. -/
def fsW : FS := FS.mk [2025]
  (fun y => decide (y = 2025))
  (fun y => decide (y = 2025))
  (fun _ => 5)
  (fun y => if y = 2025 then some [] else none)
  (fun p => decide (p = "p"))
  (fun _ => 7)
  (fun p => if p = "p" then some (Json.num 2) else none)

/-- Fixture cache holding a fresh line for `p` (stored mtime 7 = current). -/
def cacheW1 : IpoCache := [(2025, YearEntry.mk 5 [] [("p", DetailEntry.mk 7 (Json.num 1))])]

/-- Fixture cache holding a stale line for `p` and a stale year index. -/
def cacheW2 : IpoCache := [(2025, YearEntry.mk 4 [] [("p", DetailEntry.mk 3 (Json.num 1))])]

/-- Witness for C1: the fresh line is served unchanged; the stale line and
the stale index are re-read, restamped and their new content returned. -/
theorem claim_C1_witness :
    get_ipo_detail_data fsW cacheW1 2025 "p" = (cacheW1, some (Json.num 1)) ∧
    get_ipo_detail_data fsW cacheW2 2025 "p" =
      ([(2025, YearEntry.mk 4 [] [("p", DetailEntry.mk 7 (Json.num 2))])], some (Json.num 2)) ∧
    load_year_data fsW cacheW1 2025 = (cacheW1, true) ∧
    load_year_data fsW cacheW2 2025 = ([(2025, YearEntry.mk 5 [] [])], true) := by
  refine ⟨?_, ?_, ?_, ?_⟩
  · exact (claim_C1 fsW cacheW1 2025 "p").1
      (YearEntry.mk 5 [] [("p", DetailEntry.mk 7 (Json.num 1))])
      (DetailEntry.mk 7 (Json.num 1)) rfl rfl rfl (by decide)
  · exact (claim_C1 fsW cacheW2 2025 "p").2.1
      (YearEntry.mk 4 [] [("p", DetailEntry.mk 3 (Json.num 1))])
      (DetailEntry.mk 3 (Json.num 1)) (Json.num 2) rfl rfl rfl (by decide) rfl
  · exact (claim_C1 fsW cacheW1 2025 "p").2.2.1
      (YearEntry.mk 5 [] [("p", DetailEntry.mk 7 (Json.num 1))]) rfl rfl rfl (by decide)
  · exact (claim_C1 fsW cacheW2 2025 "p").2.2.2
      (YearEntry.mk 4 [] [("p", DetailEntry.mk 3 (Json.num 1))]) [] rfl rfl rfl
      (by decide) rfl

/-- Fixture filesystem on which every loader fails: year 1 has no
directory, year 2 no meta file, years 3 and 4 a meta file whose decode
fails; record files `q` and `r` exist but fail to decode. -/
def fsF : FS := FS.mk [1]
  (fun y => decide (y = 2 ∨ y = 3 ∨ y = 4))
  (fun y => decide (y = 3 ∨ y = 4))
  (fun _ => 10)
  (fun _ => none)
  (fun p => decide (p = "q" ∨ p = "r"))
  (fun _ => 9)
  (fun _ => none)

/-- Fixture cache for the failure scenarios: year 4 cached stale with a
stale line for `q`. -/
def cacheF : IpoCache := [(4, YearEntry.mk 1 [] [("q", DetailEntry.mk 2 (Json.num 1))])]

/-- Witness for C2: all seven failure paths leave the cache unchanged and
report failure. -/
theorem claim_C2_witness :
    load_year_data fsF cacheF 1 = (cacheF, false) ∧
    load_year_data fsF cacheF 2 = (cacheF, false) ∧
    load_year_data fsF cacheF 3 = (cacheF, false) ∧
    load_year_data fsF cacheF 4 = (cacheF, false) ∧
    get_ipo_detail_data fsF cacheF 4 "zz" = (cacheF, none) ∧
    get_ipo_detail_data fsF cacheF 4 "r" = (cacheF, none) ∧
    get_ipo_detail_data fsF cacheF 4 "q" = (cacheF, none) := by
  refine ⟨?_, ?_, ?_, ?_, ?_, ?_, ?_⟩
  · exact (claim_C2 fsF cacheF 1 "q").1 rfl
  · exact (claim_C2 fsF cacheF 2 "q").2.1 rfl rfl
  · exact (claim_C2 fsF cacheF 3 "q").2.2.1 rfl rfl rfl rfl
  · exact (claim_C2 fsF cacheF 4 "q").2.2.2.1
      (YearEntry.mk 1 [] [("q", DetailEntry.mk 2 (Json.num 1))]) rfl rfl rfl (by decide) rfl
  · exact (claim_C2 fsF cacheF 4 "zz").2.2.2.2.1
      (YearEntry.mk 1 [] [("q", DetailEntry.mk 2 (Json.num 1))]) rfl rfl
  · exact (claim_C2 fsF cacheF 4 "r").2.2.2.2.2.1
      (YearEntry.mk 1 [] [("q", DetailEntry.mk 2 (Json.num 1))]) rfl rfl rfl rfl
  · exact (claim_C2 fsF cacheF 4 "q").2.2.2.2.2.2
      (YearEntry.mk 1 [] [("q", DetailEntry.mk 2 (Json.num 1))])
      (DetailEntry.mk 2 (Json.num 1)) rfl rfl rfl (by decide) rfl

/-- Witness for C8: reloading the stale index of year 2025 resets its
detail cache to empty and the next detail read consults the disk loader. -/
theorem claim_C8_witness :
    load_year_data fsW cacheW2 2025 = ([(2025, YearEntry.mk 5 [] [])], true) ∧
    (get_ipo_detail_data fsW [(2025, YearEntry.mk 5 [] [])] 2025 "p").2
      = some (Json.num 2) := by
  have h := claim_C8 fsW cacheW2 2025
    (YearEntry.mk 4 [] [("p", DetailEntry.mk 3 (Json.num 1))]) [] rfl rfl rfl (by decide) rfl
  exact ⟨h.1, h.2.2 "p" rfl⟩

/-- C10: a successful detail request writes the computed status into the
very cache line it served: afterwards the line's stored body is the
returned body, that body is a dict carrying a `status` key, and any later
detail read while the file's timestamp has not advanced past the stored one
returns the same body unchanged (for every filesystem state agreeing on
presence, hence regardless of the on-disk content, and independently of the
evaluation date, so the injected status is frozen). -/
theorem claim_C10 (fs : FS) (cache : IpoCache) (today : PyDate) (year : Int)
    (path : String) :
    ∀ c2 d2, detailRequestCore fs cache today year path = (c2, Except.ok d2) →
      ∃ ye de, assocFind year c2 = some ye ∧ assocFind path ye.ipo_data = some de ∧
        de.data = d2 ∧
        (∃ fields2 stv, d2 = Json.obj fields2 ∧
          assocFind "status" fields2 = some (Json.str stv)) ∧
        (∀ fs2 : FS, fs2.detailPresent path = true → fs2.detailMtime path ≤ de.mtime →
          get_ipo_detail_data fs2 c2 year path = (c2, some d2)) := by
  intro c2 d2 h
  unfold detailRequestCore at h
  rcases hg : get_ipo_detail_data fs cache year path with ⟨c1, dOpt⟩
  rw [hg] at h
  cases dOpt with
  | none => simp at h
  | some d =>
    simp only [] at h
    by_cases ht : truthy d = false
    · simp [ht] at h
    · rw [if_neg ht] at h
      cases d with
      | obj fields =>
        cases hst : assocFind "ipo_details" fields with
        | some v =>
          simp only [hst] at h
          cases htp : toPairs v with
          | none => simp [htp] at h
          | some prs =>
            simp only [htp] at h
            cases hy : assocFind year c1 with
            | none => simp [hy] at h
            | some ye =>
              simp only [hy] at h
              cases hl : assocFind path ye.ipo_data with
              | none => simp [hl] at h
              | some de =>
                simp only [hl, Prod.mk.injEq, Except.ok.injEq] at h
                obtain ⟨hc2, hd2⟩ := h
                refine ⟨YearEntry.mk ye.meta_mtime ye.meta_data
                    (assocSet path
                      (DetailEntry.mk de.mtime
                        (Json.obj (assocSet "status"
                          (Json.str (get_ipo_status today prs)) fields))) ye.ipo_data),
                  DetailEntry.mk de.mtime
                    (Json.obj (assocSet "status"
                      (Json.str (get_ipo_status today prs)) fields)), ?_, ?_, ?_, ?_, ?_⟩
                · rw [← hc2]
                  exact assocFind_assocSet_self year _ c1
                · exact assocFind_assocSet_self path _ ye.ipo_data
                · exact hd2
                · exact ⟨assocSet "status" (Json.str (get_ipo_status today prs)) fields,
                    get_ipo_status today prs, hd2.symm,
                    assocFind_assocSet_self "status" _ fields⟩
                · intro fs2 hp2 hm2
                  have hfr := gdd_fresh_hit fs2 c2 year path _ _
                    (by rw [← hc2]; exact assocFind_assocSet_self year _ c1)
                    (assocFind_assocSet_self path
                      (DetailEntry.mk de.mtime
                        (Json.obj (assocSet "status"
                          (Json.str (get_ipo_status today prs)) fields))) ye.ipo_data)
                    hp2 hm2
                  rw [hfr, hd2]
        | none =>
          simp only [hst] at h
          cases hy : assocFind year c1 with
          | none => simp [hy] at h
          | some ye =>
            simp only [hy] at h
            cases hl : assocFind path ye.ipo_data with
            | none => simp [hl] at h
            | some de =>
              simp only [hl, Prod.mk.injEq, Except.ok.injEq] at h
              obtain ⟨hc2, hd2⟩ := h
              refine ⟨YearEntry.mk ye.meta_mtime ye.meta_data
                  (assocSet path
                    (DetailEntry.mk de.mtime
                      (Json.obj (assocSet "status" (Json.str "Unknown") fields)))
                    ye.ipo_data),
                DetailEntry.mk de.mtime
                  (Json.obj (assocSet "status" (Json.str "Unknown") fields)),
                ?_, ?_, ?_, ?_, ?_⟩
              · rw [← hc2]
                exact assocFind_assocSet_self year _ c1
              · exact assocFind_assocSet_self path _ ye.ipo_data
              · exact hd2
              · exact ⟨assocSet "status" (Json.str "Unknown") fields, "Unknown", hd2.symm,
                  assocFind_assocSet_self "status" _ fields⟩
              · intro fs2 hp2 hm2
                have hfr := gdd_fresh_hit fs2 c2 year path _ _
                  (by rw [← hc2]; exact assocFind_assocSet_self year _ c1)
                  (assocFind_assocSet_self path
                    (DetailEntry.mk de.mtime
                      (Json.obj (assocSet "status" (Json.str "Unknown") fields)))
                    ye.ipo_data)
                  hp2 hm2
                rw [hfr, hd2]
      | null => simp at h
      | bool b => simp at h
      | num n => simp at h
      | str s => simp at h
      | arr xs => simp at h

/-- Fixture detail document with a parseable IPO date range and no status
field on disk. -/
def docD : Json :=
  Json.obj [("ipo_details",
    Json.arr [Json.arr [Json.str "IPO Date", Json.str "Jan 1, 2030toJan 3, 2030"]])]

/-- Fixture filesystem serving `docD` under the path d.json for year 2025. -/
def fsD : FS := FS.mk [2025]
  (fun y => decide (y = 2025))
  (fun y => decide (y = 2025))
  (fun _ => 5)
  (fun y => if y = 2025 then some [] else none)
  (fun p => decide (p = "d.json"))
  (fun _ => 7)
  (fun p => if p = "d.json" then some docD else none)

/-- Fixture cache with year 2025 loaded and an empty detail cache. -/
def cacheD : IpoCache := [(2025, YearEntry.mk 5 [] [])]

/-- The body after the request: the document plus the injected status. -/
def docD2 : Json :=
  Json.obj [("ipo_details",
    Json.arr [Json.arr [Json.str "IPO Date", Json.str "Jan 1, 2030toJan 3, 2030"]]),
    ("status", Json.str "Open")]

/-- The cache after the request: the line stores the status-bearing body. -/
def cacheD2 : IpoCache := [(2025, YearEntry.mk 5 [] [("d.json", DetailEntry.mk 7 docD2)])]

/-- Witness for C10: one successful detail request on the fixture leaves the
status-bearing body in the cache line and later reads return it frozen. -/
theorem claim_C10_witness :
    ∃ ye de, assocFind 2025 cacheD2 = some ye ∧
      assocFind "d.json" ye.ipo_data = some de ∧
      de.data = docD2 ∧
      (∃ fields2 stv, docD2 = Json.obj fields2 ∧
        assocFind "status" fields2 = some (Json.str stv)) ∧
      (∀ fs2 : FS, fs2.detailPresent "d.json" = true →
        fs2.detailMtime "d.json" ≤ de.mtime →
        get_ipo_detail_data fs2 cacheD2 2025 "d.json" = (cacheD2, some docD2)) :=
  claim_C10 fsD cacheD (PyDate.mk 2030 1 2) 2025 "d.json" cacheD2 docD2 rfl

/-- Scalar JSON values (neither dict nor list), which any further path
segment fails to descend into. -/
def isScalar : Json → Bool
  | Json.null => true
  | Json.bool _ => true
  | Json.num _ => true
  | Json.str _ => true
  | _ => false

mutual

/-- Does the tree contain, anywhere, an object binding of key `k` to the
exact value `v`. -/
def containsBinding (k : String) (v : Json) : Json → Bool
  | Json.obj fields => containsBindingFields k v fields
  | Json.arr xs => containsBindingList k v xs
  | _ => false

/-- List version of `containsBinding`. -/
def containsBindingList (k : String) (v : Json) : List Json → Bool
  | [] => false
  | x :: t => containsBinding k v x || containsBindingList k v t

/-- Field-list version of `containsBinding`. -/
def containsBindingFields (k : String) (v : Json) : List (String × Json) → Bool
  | [] => false
  | (k1, v1) :: t =>
    (decide (k1 = k) && Json.beq v1 v) || containsBinding k v v1 ||
      containsBindingFields k v t

end

theorem containsBindingList_of_mem {k : String} {v x : Json} {l : List Json}
    (hx : x ∈ l) (h : containsBinding k v x = true) :
    containsBindingList k v l = true := by
  induction l with
  | nil => cases hx
  | cons a t ih =>
    rcases List.mem_cons.mp hx with h1 | h1
    · subst h1
      simp [containsBindingList, h]
    · simp [containsBindingList, ih h1]

theorem getElem?_replicate_lt {α : Type} (a : α) (n i : Nat) (h : i < n) :
    (List.replicate n a)[i]? = some a := by
  induction n generalizing i with
  | zero => omega
  | succ m ih =>
    cases i with
    | zero => simp [List.replicate]
    | succ j =>
      simp only [List.replicate, List.getElem?_cons_succ]
      exact ih j (by omega)

theorem getElem?_set_self_lt {α : Type} (l : List α) (i : Nat) (a : α)
    (h : i < l.length) : (l.set i a)[i]? = some a := by
  induction l generalizing i with
  | nil => simp at h
  | cons b t ih =>
    cases i with
    | zero => simp
    | succ j =>
      simp only [List.set, List.getElem?_cons_succ]
      exact ih j (by simpa using h)

/-- Final segment of a split path (the requested leaf key). -/
def lastSeg : List String → String
  | [] => ""
  | [p] => p
  | _ :: q :: rest => lastSeg (q :: rest)

/-- A path segment the reconstruction loop can look ahead at without
raising: either not digit-class, or decimal-parseable by `int()`. -/
def segOk (s : String) : Bool := !pyIsDigitStr s || (pyIntOfDigits s.data).isSome

/-- Helper: the reconstruction loop started on a fresh empty dict succeeds
whenever no segment after the first is digit-class but `int()`-rejected,
and the leaf key of the path ends up bound to the inserted value somewhere
in the output. -/
theorem recon_obj_nil_ok (v : Json) : ∀ (parts : List String),
    (∀ q ∈ parts.tail, segOk q = true) →
    ∃ out, recon (Json.obj []) parts v = some out ∧
      (parts ≠ [] → containsBinding (lastSeg parts) v out = true) := by
  intro parts
  induction parts with
  | nil => exact fun _ => ⟨Json.obj [], rfl, by simp⟩
  | cons p tail ih =>
    intro hsegs
    cases tail with
    | nil =>
      refine ⟨Json.obj [(p, v)], rfl, fun _ => ?_⟩
      simp [lastSeg, containsBinding, containsBindingFields, Json.beq_refl]
    | cons q rest =>
      obtain ⟨out1, hout1, hbind1⟩ :=
        ih (fun x hx => hsegs x (List.mem_cons_of_mem q hx))
      have hb := hbind1 (by simp)
      by_cases hq : pyIsDigitStr q = true
      · have hsome : (pyIntOfDigits q.data).isSome = true := by
          have hs := hsegs q (by simp)
          simpa [segOk, hq] using hs
        obtain ⟨idx, hidx⟩ := Option.isSome_iff_exists.mp hsome
        have hget : (growTo [] idx)[idx]? = some (Json.obj []) := by
          simp only [growTo, List.nil_append, List.length_nil, Nat.sub_zero]
          exact getElem?_replicate_lt _ _ _ (by omega)
        refine ⟨Json.obj [(p, Json.arr ((growTo [] idx).set idx out1))], ?_, ?_⟩
        · simp [recon, hq, hidx, assocFind, hget, hout1, assocSet]
        · intro _
          have hlen : (growTo [] idx).length = idx + 1 := by
            simp [growTo]
          have hmem : out1 ∈ (growTo [] idx).set idx out1 := by
            have hg := getElem?_set_self_lt (growTo [] idx) idx out1 (by omega)
            exact List.get?_mem (by rw [List.get?_eq_getElem?]; exact hg)
          simp [lastSeg, containsBinding, containsBindingFields,
            containsBindingList_of_mem hmem hb]
      · refine ⟨Json.obj [(p, out1)], ?_, ?_⟩
        · simp [recon, hq, assocFind, hout1, assocSet]
        · intro _
          simp [lastSeg, containsBinding, containsBindingFields, hb]

theorem splitDotChars_ne_nil (cs : List Char) : splitDotChars cs ≠ [] := by
  induction cs with
  | nil => simp [splitDotChars]
  | cons c t ih =>
    by_cases hc : c = '.'
    · simp [splitDotChars, hc]
    · simp only [splitDotChars, if_neg hc]
      cases h : splitDotChars t with
      | nil => exact absurd h ih
      | cons a b => simp

theorem pySplitDot_ne_nil (s : String) : pySplitDot s ≠ [] := by
  simp [pySplitDot, splitDotChars_ne_nil]

/-- C5 counterexample: the claim's never-raises guarantee fails on the
program.  The segment of the superscript-two character is `isdigit`-true,
so resolution takes the guarded `int()` (and safely yields None), but the
reconstruction loop's unguarded `int(path_parts[i+1])` raises ValueError
and the whole single-path projection aborts (modelled `none`) instead of
producing an output with a null-bound leaf.  An all-ASCII two-path request
likewise aborts with TypeError when the first path plants an array of
scalars that the second path descends into. -/
theorem claim_C5_counterexample :
    projectFields (Json.obj [("items", Json.arr [Json.obj []])]) ["items.²"] = none ∧
    get_nested_value (Json.obj [("items", Json.arr [Json.obj []])]) "items.²" = none ∧
    projectFields (Json.obj [("a", Json.arr [Json.num 1, Json.num 2])])
      ["a", "a.0.b"] = none := by
  exact ⟨rfl, rfl, rfl⟩

/-- C5 amended: path RESOLUTION is total and never raises — a key absent
from a dict, a non-digit-class segment (including negative indices), a
digit-class segment `int()` rejects (the guarded ValueError), a decimal
segment out of bounds, and any segment against a scalar all resolve to
None; and the single-path projection succeeds with the requested leaf key
bound to the resolved value (null on failure) PROVIDED no segment after
the first is digit-class but not decimal — on such a segment the
reconstruction's unguarded `int()` raises and the projection aborts, as
the counterexample shows. -/
theorem claim_C5_amended (data : Json) (path : String) :
    (∀ fields k ks, data = Json.obj fields → assocFind k fields = none →
      gnv data (k :: ks) = none) ∧
    (∀ xs k ks, data = Json.arr xs → pyIsDigitStr k = false →
      gnv data (k :: ks) = none) ∧
    (∀ xs k ks, data = Json.arr xs → pyIsDigitStr k = true →
      pyIntOfDigits k.data = none → gnv data (k :: ks) = none) ∧
    (∀ xs k ks i, data = Json.arr xs → pyIsDigitStr k = true →
      pyIntOfDigits k.data = some i → xs.length ≤ i →
      gnv data (k :: ks) = none) ∧
    (∀ k ks, isScalar data = true → gnv data (k :: ks) = none) ∧
    ((∀ q ∈ (pySplitDot path).tail, segOk q = true) →
      ∃ out, projectFields data [path] = some out ∧
        containsBinding (lastSeg (pySplitDot path))
          (optToJson (get_nested_value data path)) out = true) := by
  refine ⟨?_, ?_, ?_, ?_, ?_, ?_⟩
  · intro fields k ks h1 h2
    subst h1
    simp [gnv, h2]
  · intro xs k ks h1 h2
    subst h1
    simp [gnv, h2]
  · intro xs k ks h1 h2 h3
    subst h1
    simp [gnv, h2, h3]
  · intro xs k ks i h1 h2 h3 h4
    subst h1
    simp [gnv, h2, h3, List.getElem?_eq_none h4]
  · intro k ks h1
    cases data with
    | null => simp [gnv]
    | bool b => simp [gnv]
    | num n => simp [gnv]
    | str s => simp [gnv]
    | arr xs => simp [isScalar] at h1
    | obj fields => simp [isScalar] at h1
  · intro hsegs
    obtain ⟨out, h1, h2⟩ :=
      recon_obj_nil_ok (optToJson (get_nested_value data path)) (pySplitDot path) hsegs
    refine ⟨out, ?_, h2 (pySplitDot_ne_nil path)⟩
    simp [projectFields, List.foldlM, h1]

/-- Witness for the amended C5: concrete None results for each resolution
failure — including an out-of-bounds Arabic-Indic decimal digit and a
superscript digit whose guarded `int()` fails — and one concrete projection
carrying the null placeholder at the leaf key. -/
theorem claim_C5_amended_witness :
    gnv (Json.obj [("x", Json.null)]) ["y"] = none ∧
    gnv (Json.arr [Json.num 1]) ["-1"] = none ∧
    gnv (Json.arr [Json.num 1]) ["²"] = none ∧
    gnv (Json.arr [Json.num 1]) ["٣"] = none ∧
    gnv (Json.num 3) ["k"] = none ∧
    (∃ out, projectFields (Json.obj [("items", Json.arr [])]) ["items.0.name"] = some out ∧
      containsBinding (lastSeg (pySplitDot "items.0.name"))
        (optToJson (get_nested_value (Json.obj [("items", Json.arr [])]) "items.0.name"))
        out = true) := by
  refine ⟨?_, ?_, ?_, ?_, ?_, ?_⟩
  · exact (claim_C5_amended (Json.obj [("x", Json.null)]) "").1 [("x", Json.null)] "y" [] rfl rfl
  · exact (claim_C5_amended (Json.arr [Json.num 1]) "").2.1 [Json.num 1] "-1" [] rfl rfl
  · exact (claim_C5_amended (Json.arr [Json.num 1]) "").2.2.1 [Json.num 1] "²" [] rfl rfl rfl
  · exact (claim_C5_amended (Json.arr [Json.num 1]) "").2.2.2.1 [Json.num 1] "٣" [] 3 rfl rfl
      rfl (by decide)
  · exact (claim_C5_amended (Json.num 3) "").2.2.2.2.1 "k" [] rfl
  · exact (claim_C5_amended (Json.obj [("items", Json.arr [])]) "items.0.name").2.2.2.2.2
      (by decide)

/-- What a detail read can deliver from disk: the loader's result when the
file exists, nothing otherwise. -/
def detailView (fs : FS) (p : String) : Option Json :=
  if fs.detailPresent p then fs.detailLoad p else none

/-- What one year's meta load can deliver from disk. -/
def loadedMetaView (fs : FS) (y : Int) : Option (List Json) :=
  if fs.yearDirPresent y && fs.metaPresent y then fs.metaLoad y else none

/-- Consistency of the in-process cache with the (static) filesystem
snapshot: every cached entry is fresh and carries exactly what the
corresponding file loads to.  The empty cache is trivially consistent, and
within one request (the filesystem unchanged) every cache operation
preserves it. -/
def cacheOk (fs : FS) (c : IpoCache) : Prop :=
  ∀ y ye, assocFind y c = some ye →
    fs.yearDirPresent y = true ∧ fs.metaPresent y = true ∧
    fs.metaMtime y ≤ ye.meta_mtime ∧ fs.metaLoad y = some ye.meta_data ∧
    ∀ p de, assocFind p ye.ipo_data = some de →
      fs.detailPresent p = true ∧ fs.detailMtime p ≤ de.mtime ∧
      fs.detailLoad p = some de.data

theorem cacheOk_nil (fs : FS) : cacheOk fs [] := by
  intro y ye h
  simp [assocFind] at h

/-- Helper: on a consistent cache with the year entry present, a detail
read returns exactly the disk view, preserves consistency, and keeps the
year entry (with its meta data). -/
theorem gdd_view (fs : FS) (c : IpoCache) (year : Int) (p : String) (ye : YearEntry)
    (hok : cacheOk fs c) (hy : assocFind year c = some ye) :
    ∃ c', get_ipo_detail_data fs c year p = (c', detailView fs p) ∧ cacheOk fs c' ∧
      ∃ ye', assocFind year c' = some ye' ∧ ye'.meta_data = ye.meta_data := by
  by_cases hp : fs.detailPresent p = true
  · cases hl : assocFind p ye.ipo_data with
    | some de =>
      obtain ⟨hp2, hm, hload⟩ := (hok year ye hy).2.2.2.2 p de hl
      have hfr := gdd_fresh_hit fs c year p ye de hy hl hp hm
      refine ⟨c, ?_, hok, ye, hy, rfl⟩
      rw [hfr]
      simp [detailView, hp, hload]
    | none =>
      cases hd : fs.detailLoad p with
      | none =>
        refine ⟨c, ?_, hok, ye, hy, rfl⟩
        simp [get_ipo_detail_data, hy, hp, hl, hd, detailView]
      | some d =>
        refine ⟨assocSet year
          (YearEntry.mk ye.meta_mtime ye.meta_data
            (assocSet p (DetailEntry.mk (fs.detailMtime p) d) ye.ipo_data)) c, ?_, ?_, ?_⟩
        · simp [get_ipo_detail_data, hy, hp, hl, hd, detailView]
        · intro y2 ye2 hy2
          by_cases hyy : y2 = year
          · subst hyy
            rw [assocFind_assocSet_self] at hy2
            cases hy2
            obtain ⟨hb1, hb2, hb3, hb4, hb5⟩ := hok y2 ye hy
            refine ⟨hb1, hb2, hb3, hb4, ?_⟩
            intro p2 de2 hp2'
            by_cases hpp : p2 = p
            · subst hpp
              rw [assocFind_assocSet_self] at hp2'
              cases hp2'
              exact ⟨hp, le_refl _, hd⟩
            · rw [assocFind_assocSet_ne _ _ hpp] at hp2'
              exact hb5 p2 de2 hp2'
          · rw [assocFind_assocSet_ne _ _ hyy] at hy2
            exact hok y2 ye2 hy2
        · exact ⟨_, assocFind_assocSet_self _ _ _, rfl⟩
  · have hp' : fs.detailPresent p = false := by
      cases h : fs.detailPresent p
      · rfl
      · exact absurd h hp
    refine ⟨c, ?_, hok, ye, hy, rfl⟩
    simp [get_ipo_detail_data, hy, hp', detailView]

/-- Helper: on a consistent cache, `load_year_data` fails exactly when the
disk view is empty (leaving the cache untouched), and otherwise succeeds
with the year entry holding the disk meta data. -/
theorem load_year_view (fs : FS) (c : IpoCache) (y : Int) (hok : cacheOk fs c) :
    (loadedMetaView fs y = none → load_year_data fs c y = (c, false)) ∧
    (∀ md, loadedMetaView fs y = some md →
      ∃ c', load_year_data fs c y = (c', true) ∧ cacheOk fs c' ∧
        ∃ ye, assocFind y c' = some ye ∧ ye.meta_data = md) := by
  constructor
  · intro hv
    unfold loadedMetaView at hv
    cases hdir : fs.yearDirPresent y with
    | false => simp [load_year_data, hdir]
    | true =>
      cases hmeta : fs.metaPresent y with
      | false => simp [load_year_data, hdir, hmeta]
      | true =>
        rw [hdir, hmeta] at hv
        simp only [Bool.and_self, if_true] at hv
        cases hfind : assocFind y c with
        | none => simp [load_year_data, hdir, hmeta, hfind, hv]
        | some ye =>
          have := (hok y ye hfind).2.2.2.1
          rw [hv] at this
          cases this
  · intro md hv
    unfold loadedMetaView at hv
    cases hdir : fs.yearDirPresent y with
    | false => rw [hdir] at hv; simp at hv
    | true =>
      cases hmeta : fs.metaPresent y with
      | false => rw [hdir, hmeta] at hv; simp at hv
      | true =>
        rw [hdir, hmeta] at hv
        simp only [Bool.and_self, if_true] at hv
        cases hfind : assocFind y c with
        | none =>
          refine ⟨assocSet y (YearEntry.mk (fs.metaMtime y) md []) c, ?_, ?_, ?_⟩
          · simp [load_year_data, hdir, hmeta, hfind, hv]
          · intro y2 ye2 hy2
            by_cases hyy : y2 = y
            · subst hyy
              rw [assocFind_assocSet_self] at hy2
              cases hy2
              refine ⟨hdir, hmeta, le_refl _, hv, ?_⟩
              intro p2 de2 hp2
              simp [assocFind] at hp2
            · rw [assocFind_assocSet_ne _ _ hyy] at hy2
              exact hok y2 ye2 hy2
          · exact ⟨_, assocFind_assocSet_self _ _ _, rfl⟩
        | some ye =>
          obtain ⟨hb1, hb2, hb3, hb4, hb5⟩ := hok y ye hfind
          refine ⟨c, lyd_fresh fs c y ye hdir hmeta hfind hb3, hok, ye, hfind, ?_⟩
          rw [hv] at hb4
          cases hb4
          rfl

/-- Every successfully loading record document keeps the status computation
of the listing endpoints exception-free (the corpus documents' pair-table
shape guarantees this; it is the well-formedness hypothesis of the
endpoint-level statements). -/
def statusSafe (fs : FS) (today : PyDate) : Prop :=
  ∀ p j, fs.detailLoad p = some j → ∃ s, computeStatusE today (some j) = Except.ok s

/-- The status a listing endpoint shows for the record at path `p`. -/
def statusView (fs : FS) (today : PyDate) (p : String) : String :=
  match computeStatusE today (detailView fs p) with
  | Except.ok s => s
  | Except.error _ => "Unknown"

theorem computeStatusE_view (fs : FS) (today : PyDate) (p : String)
    (hsafe : statusSafe fs today) :
    computeStatusE today (detailView fs p) = Except.ok (statusView fs today p) := by
  unfold statusView
  cases hd : detailView fs p with
  | none => simp [computeStatusE]
  | some j =>
    have hld : fs.detailLoad p = some j := by
      unfold detailView at hd
      cases hp : fs.detailPresent p with
      | false => rw [hp] at hd; simp at hd
      | true => rw [hp] at hd; simpa using hd
    obtain ⟨s, hs⟩ := hsafe p j hld
    rw [hs]

/-- Detail path stored in a meta item (empty string when absent — unused in
that case). -/
def jpathOf (item : Json) : String :=
  match item with
  | Json.obj fields =>
    match assocFind "json_path" fields with
    | some (Json.str p) => p
    | _ => ""
  | _ => ""

/-- A meta item that the subscript-style endpoints can process: a dict
whose json_path key holds a string. -/
def itemHasStrPath (item : Json) : Prop :=
  ∃ fields p, item = Json.obj fields ∧ assocFind "json_path" fields = some (Json.str p)

/-- The envelope `get_ipos_by_year` produces for one meta item. -/
def yearEnv (fs : FS) (today : PyDate) (year : Int) (item : Json) : Json :=
  mkListEnvelope item year (statusView fs today (jpathOf item))

/-- Helper: the `get_ipos_by_year` loop over well-shaped meta items never
fails and produces one envelope per item, preserving cache consistency. -/
theorem year_fold (fs : FS) (today : PyDate) (year : Int)
    (hsafe : statusSafe fs today) :
    ∀ (l : List Json) (c : IpoCache) (acc : List Json) (ye : YearEntry),
      cacheOk fs c → assocFind year c = some ye →
      (∀ item ∈ l, itemHasStrPath item) →
      ∃ c2 ye2, l.foldlM (yearLoopBody fs today year) (c, acc)
          = Except.ok (c2, acc ++ l.map (yearEnv fs today year)) ∧
        cacheOk fs c2 ∧ assocFind year c2 = some ye2 := by
  intro l
  induction l with
  | nil =>
    intro c acc ye hok hy hall
    exact ⟨c, ye, by simp [pure, Except.pure], hok, hy⟩
  | cons item t ih =>
    intro c acc ye hok hy hall
    obtain ⟨fields, p, hfi, hjp⟩ := hall item (by simp)
    subst hfi
    obtain ⟨c', hgdd, hok', ye', hy', hmeta'⟩ := gdd_view fs c year p ye hok hy
    have hjpath : jpathOf (Json.obj fields) = p := by simp [jpathOf, hjp]
    have hbody : yearLoopBody fs today year (c, acc) (Json.obj fields)
        = Except.ok (c', acc ++ [yearEnv fs today year (Json.obj fields)]) := by
      simp only [yearLoopBody, getItemStr, hjp, hgdd,
        computeStatusE_view fs today p hsafe, yearEnv, hjpath]
    obtain ⟨c2, ye2, hfold, hok2, hy2⟩ :=
      ih c' (acc ++ [yearEnv fs today year (Json.obj fields)]) ye' hok' hy'
        (fun it hit => hall it (by simp [hit]))
    refine ⟨c2, ye2, ?_, hok2, hy2⟩
    rw [List.foldlM_cons, hbody]
    simp only [bind, Except.bind]
    rw [hfold]
    simp

/-- A meta item that `get_all_ipos` can process: a dict whose json_path, if
present and truthy, is a string (a falsy value of any type is skipped). -/
def looseOkItem (item : Json) : Prop :=
  ∃ fields, item = Json.obj fields ∧
    ∀ v, assocFind "json_path" fields = some v →
      (∃ p, v = Json.str p) ∨ truthy v = false

/-- The envelope `get_all_ipos` produces for one meta item, `none` when the
item is skipped for a missing or falsy json_path. -/
def allEnvOpt (fs : FS) (today : PyDate) (year : Int) (item : Json) : Option Json :=
  match item with
  | Json.obj fields =>
    match assocFind "json_path" fields with
    | none => none
    | some v =>
      if truthy v = false then none
      else some (mkListEnvelope item year (statusView fs today (jpathOf item)))
  | _ => none

/-- Helper: the `get_all_ipos` loop over loosely well-shaped meta items
never fails, skipping pathless items and producing one envelope per
processed item. -/
theorem all_fold (fs : FS) (today : PyDate) (year : Int)
    (hsafe : statusSafe fs today) :
    ∀ (l : List Json) (c : IpoCache) (acc : List Json) (ye : YearEntry),
      cacheOk fs c → assocFind year c = some ye →
      (∀ item ∈ l, looseOkItem item) →
      ∃ c2, l.foldlM (allLoopBody fs today year) (c, acc)
          = Except.ok (c2, acc ++ l.filterMap (allEnvOpt fs today year)) ∧
        cacheOk fs c2 := by
  intro l
  induction l with
  | nil =>
    intro c acc ye hok hy hall
    exact ⟨c, by simp [pure, Except.pure], hok⟩
  | cons item t ih =>
    intro c acc ye hok hy hall
    obtain ⟨fields, hfi, hcase⟩ := hall item (by simp)
    subst hfi
    cases hjp : assocFind "json_path" fields with
    | none =>
      have hbody : allLoopBody fs today year (c, acc) (Json.obj fields)
          = Except.ok (c, acc) := by
        simp only [allLoopBody, hjp]
      obtain ⟨c2, hfold, hok2⟩ :=
        ih c acc ye hok hy (fun it hit => hall it (by simp [hit]))
      refine ⟨c2, ?_, hok2⟩
      rw [List.foldlM_cons, hbody]
      simp only [bind, Except.bind]
      rw [hfold]
      simp [List.filterMap_cons, allEnvOpt, hjp]
    | some v =>
      rcases hcase v hjp with ⟨p, hvp⟩ | htf
      · subst hvp
        by_cases ht : truthy (Json.str p) = false
        · have hbody : allLoopBody fs today year (c, acc) (Json.obj fields)
              = Except.ok (c, acc) := by
            simp only [allLoopBody, hjp, ht, if_pos]
          obtain ⟨c2, hfold, hok2⟩ :=
            ih c acc ye hok hy (fun it hit => hall it (by simp [hit]))
          refine ⟨c2, ?_, hok2⟩
          rw [List.foldlM_cons, hbody]
          simp only [bind, Except.bind]
          rw [hfold]
          simp [List.filterMap_cons, allEnvOpt, hjp, ht]
        · obtain ⟨c', hgdd, hok', ye', hy', hmeta'⟩ := gdd_view fs c year p ye hok hy
          have hjpath : jpathOf (Json.obj fields) = p := by simp [jpathOf, hjp]
          have hbody : allLoopBody fs today year (c, acc) (Json.obj fields)
              = Except.ok (c', acc ++ [mkListEnvelope (Json.obj fields) year
                  (statusView fs today p)]) := by
            simp only [allLoopBody, hjp, if_neg ht, hgdd,
              computeStatusE_view fs today p hsafe]
          obtain ⟨c2, hfold, hok2⟩ :=
            ih c' (acc ++ [mkListEnvelope (Json.obj fields) year (statusView fs today p)])
              ye' hok' hy' (fun it hit => hall it (by simp [hit]))
          refine ⟨c2, ?_, hok2⟩
          rw [List.foldlM_cons, hbody]
          simp only [bind, Except.bind]
          rw [hfold]
          simp [List.filterMap_cons, allEnvOpt, hjp, ht, hjpath]
      · have hbody : allLoopBody fs today year (c, acc) (Json.obj fields)
            = Except.ok (c, acc) := by
          simp only [allLoopBody, hjp, htf, if_pos]
        obtain ⟨c2, hfold, hok2⟩ :=
          ih c acc ye hok hy (fun it hit => hall it (by simp [hit]))
        refine ⟨c2, ?_, hok2⟩
        rw [List.foldlM_cons, hbody]
        simp only [bind, Except.bind]
        rw [hfold]
        simp [List.filterMap_cons, allEnvOpt, hjp, htf]

/-- The envelope `get_ipos_by_status` keeps for one meta item: present only
when the derived status matches the requested one case-insensitively. -/
def statusEnvOpt (fs : FS) (today : PyDate) (stLow : String) (year : Int)
    (item : Json) : Option Json :=
  if lowerStr (statusView fs today (jpathOf item)) = stLow
  then some (mkListEnvelope item year (statusView fs today (jpathOf item)))
  else none

/-- Helper: the `get_ipos_by_status` loop over well-shaped meta items never
fails and keeps exactly the matching envelopes. -/
theorem status_fold (fs : FS) (today : PyDate) (stLow : String) (year : Int)
    (hsafe : statusSafe fs today) :
    ∀ (l : List Json) (c : IpoCache) (acc : List Json) (ye : YearEntry),
      cacheOk fs c → assocFind year c = some ye →
      (∀ item ∈ l, itemHasStrPath item) →
      ∃ c2, l.foldlM (statusLoopBody fs today stLow year) (c, acc)
          = Except.ok (c2, acc ++ l.filterMap (statusEnvOpt fs today stLow year)) ∧
        cacheOk fs c2 := by
  intro l
  induction l with
  | nil =>
    intro c acc ye hok hy hall
    exact ⟨c, by simp [pure, Except.pure], hok⟩
  | cons item t ih =>
    intro c acc ye hok hy hall
    obtain ⟨fields, p, hfi, hjp⟩ := hall item (by simp)
    subst hfi
    obtain ⟨c', hgdd, hok', ye', hy', hmeta'⟩ := gdd_view fs c year p ye hok hy
    have hjpath : jpathOf (Json.obj fields) = p := by simp [jpathOf, hjp]
    by_cases hmatch : lowerStr (statusView fs today p) = stLow
    · have hbody : statusLoopBody fs today stLow year (c, acc) (Json.obj fields)
          = Except.ok (c', acc ++ [mkListEnvelope (Json.obj fields) year
              (statusView fs today p)]) := by
        simp only [statusLoopBody, getItemStr, hjp, hgdd,
          computeStatusE_view fs today p hsafe, hmatch, if_pos]
      obtain ⟨c2, hfold, hok2⟩ :=
        ih c' (acc ++ [mkListEnvelope (Json.obj fields) year (statusView fs today p)])
          ye' hok' hy' (fun it hit => hall it (by simp [hit]))
      refine ⟨c2, ?_, hok2⟩
      rw [List.foldlM_cons, hbody]
      simp only [bind, Except.bind]
      rw [hfold]
      simp [List.filterMap_cons, statusEnvOpt, hjpath, hmatch]
    · have hbody : statusLoopBody fs today stLow year (c, acc) (Json.obj fields)
          = Except.ok (c', acc) := by
        simp only [statusLoopBody, getItemStr, hjp, hgdd,
          computeStatusE_view fs today p hsafe, hmatch, if_neg, if_false]
      obtain ⟨c2, hfold, hok2⟩ :=
        ih c' acc ye' hok' hy' (fun it hit => hall it (by simp [hit]))
      refine ⟨c2, ?_, hok2⟩
      rw [List.foldlM_cons, hbody]
      simp only [bind, Except.bind]
      rw [hfold]
      simp [List.filterMap_cons, statusEnvOpt, hjpath, hmatch]

/-- Contribution of one year to the `get_all_ipos` response. -/
def allYearContrib (fs : FS) (today : PyDate) (y : Int) : List Json :=
  match loadedMetaView fs y with
  | some md => md.filterMap (allEnvOpt fs today y)
  | none => []

/-- Helper: the year loop of `get_all_ipos` never fails under the loose
item shape, skipping unloadable years whole. -/
theorem all_years_fold (fs : FS) (today : PyDate) (hsafe : statusSafe fs today) :
    ∀ (ys : List Int) (c : IpoCache) (acc : List Json),
      cacheOk fs c →
      (∀ y md, loadedMetaView fs y = some md → ∀ item ∈ md, looseOkItem item) →
      ∃ c2, ys.foldlM (allYearBody fs today) (c, acc)
          = Except.ok (c2, acc ++ (ys.map (allYearContrib fs today)).flatten) ∧
        cacheOk fs c2 := by
  intro ys
  induction ys with
  | nil =>
    intro c acc hok hall
    exact ⟨c, by simp [pure, Except.pure], hok⟩
  | cons y t ih =>
    intro c acc hok hall
    cases hv : loadedMetaView fs y with
    | none =>
      have hload := (load_year_view fs c y hok).1 hv
      have hbody : allYearBody fs today (c, acc) y = Except.ok (c, acc) := by
        simp only [allYearBody, hload]
      obtain ⟨c2, hfold, hok2⟩ := ih c acc hok hall
      refine ⟨c2, ?_, hok2⟩
      rw [List.foldlM_cons, hbody]
      simp only [bind, Except.bind]
      rw [hfold]
      simp [allYearContrib, hv]
    | some md =>
      obtain ⟨c', hload, hok', ye, hy, hmeta⟩ := (load_year_view fs c y hok).2 md hv
      obtain ⟨c'', hinner, hok''⟩ :=
        all_fold fs today y hsafe ye.meta_data c' acc ye hok' hy
          (by rw [hmeta]; exact hall y md hv)
      have hbody : allYearBody fs today (c, acc) y
          = Except.ok (c'', acc ++ md.filterMap (allEnvOpt fs today y)) := by
        simp only [allYearBody, hload, hy]
        rw [hinner, hmeta]
      obtain ⟨c2, hfold, hok2⟩ := ih c'' (acc ++ md.filterMap (allEnvOpt fs today y))
        hok'' hall
      refine ⟨c2, ?_, hok2⟩
      rw [List.foldlM_cons, hbody]
      simp only [bind, Except.bind]
      rw [hfold]
      simp [allYearContrib, hv]

/-- Contribution of one year to the `get_ipos_by_status` response. -/
def statusYearContrib (fs : FS) (today : PyDate) (stLow : String) (y : Int) : List Json :=
  match loadedMetaView fs y with
  | some md => md.filterMap (statusEnvOpt fs today stLow y)
  | none => []

/-- Helper: the year loop of `get_ipos_by_status` never fails under the
strict item shape. -/
theorem status_years_fold (fs : FS) (today : PyDate) (stLow : String)
    (hsafe : statusSafe fs today) :
    ∀ (ys : List Int) (c : IpoCache) (acc : List Json),
      cacheOk fs c →
      (∀ y md, loadedMetaView fs y = some md → ∀ item ∈ md, itemHasStrPath item) →
      ∃ c2, ys.foldlM (statusYearBody fs today stLow) (c, acc)
          = Except.ok (c2, acc ++ (ys.map (statusYearContrib fs today stLow)).flatten) ∧
        cacheOk fs c2 := by
  intro ys
  induction ys with
  | nil =>
    intro c acc hok hall
    exact ⟨c, by simp [pure, Except.pure], hok⟩
  | cons y t ih =>
    intro c acc hok hall
    cases hv : loadedMetaView fs y with
    | none =>
      have hload := (load_year_view fs c y hok).1 hv
      have hbody : statusYearBody fs today stLow (c, acc) y = Except.ok (c, acc) := by
        simp only [statusYearBody, hload]
      obtain ⟨c2, hfold, hok2⟩ := ih c acc hok hall
      refine ⟨c2, ?_, hok2⟩
      rw [List.foldlM_cons, hbody]
      simp only [bind, Except.bind]
      rw [hfold]
      simp [statusYearContrib, hv]
    | some md =>
      obtain ⟨c', hload, hok', ye, hy, hmeta⟩ := (load_year_view fs c y hok).2 md hv
      obtain ⟨c'', hinner, hok''⟩ :=
        status_fold fs today stLow y hsafe ye.meta_data c' acc ye hok' hy
          (by rw [hmeta]; exact hall y md hv)
      have hbody : statusYearBody fs today stLow (c, acc) y
          = Except.ok (c'', acc ++ md.filterMap (statusEnvOpt fs today stLow y)) := by
        simp only [statusYearBody, hload, hy]
        rw [hinner, hmeta]
      obtain ⟨c2, hfold, hok2⟩ := ih c'' (acc ++ md.filterMap (statusEnvOpt fs today stLow y))
        hok'' hall
      refine ⟨c2, ?_, hok2⟩
      rw [List.foldlM_cons, hbody]
      simp only [bind, Except.bind]
      rw [hfold]
      simp [statusYearContrib, hv]

/-- Fixture record document with a parseable date range. -/
def docG : Json :=
  Json.obj [("ipo_details",
    Json.arr [Json.arr [Json.str "IPO Date", Json.str "Jan 1, 2030toJan 3, 2030"]])]

/-- Fixture corpus with one defective index entry: year 2025's meta lists a
good record and one without any json_path key; the good record's file
loads fine. -/
def fsC9 : FS := FS.mk [2025]
  (fun y => decide (y = 2025))
  (fun y => decide (y = 2025))
  (fun _ => 1)
  (fun y => if y = 2025 then
      some [Json.obj [("name", Json.str "Good"), ("json_path", Json.str "g.json")],
            Json.obj [("name", Json.str "Bad")]]
    else none)
  (fun p => decide (p = "g.json"))
  (fun _ => 1)
  (fun p => if p = "g.json" then some docG else none)

/-- C9 counterexample: on a corpus whose index has one entry without a
json_path key, `get_ipos_by_year` raises an uncaught KeyError at the
subscript `ipo_meta['json_path']` and the whole listing aborts, although
every other record (here the first) is processed fine — refuting the claim
that each listing endpoint skips a defective record and continues. -/
theorem claim_C9_counterexample :
    get_ipos_by_year_core fsC9 [] (PyDate.mk 2030 1 2) 2025
      = Except.error ApiErr.crash := by
  rfl

/-- C9 amended: a record whose detail FILE fails to load (missing or
undecodable) never aborts a listing endpoint: with every index entry
carrying a string json_path (and loaded documents keeping the status
computation exception-free), `get_ipos_by_year` returns one envelope per
entry, and `get_all_ipos` and `get_ipos_by_status` cover every loadable
year, skipping unloadable years whole; `get_all_ipos` additionally skips
entries with a missing or falsy json_path.  (Only an index entry whose
json_path key is missing or not a string makes the subscript-style
endpoints abort, as the counterexample shows.) -/
theorem claim_C9_amended (fs : FS) (today : PyDate) :
    (∀ year md, statusSafe fs today →
      fs.yearDirPresent year = true → fs.metaPresent year = true →
      fs.metaLoad year = some md →
      (∀ item ∈ md, itemHasStrPath item) →
      ∃ c2, get_ipos_by_year_core fs [] today year
          = Except.ok (c2, md.map (yearEnv fs today year))) ∧
    (statusSafe fs today →
      (∀ y md2, loadedMetaView fs y = some md2 → ∀ item ∈ md2, looseOkItem item) →
      ∃ c2, get_all_ipos_core fs [] today
          = Except.ok (c2, ((sortDesc fs.years).map (allYearContrib fs today)).flatten)) ∧
    (∀ stype, statusSafe fs today →
      (lowerStr stype = "upcoming" ∨ lowerStr stype = "open" ∨ lowerStr stype = "closed") →
      (∀ y md2, loadedMetaView fs y = some md2 → ∀ item ∈ md2, itemHasStrPath item) →
      ∃ c2, get_ipos_by_status_core fs [] today stype
          = Except.ok (c2, ((sortDesc fs.years).map
              (statusYearContrib fs today (lowerStr stype))).flatten)) := by
  refine ⟨?_, ?_, ?_⟩
  · intro year md hsafe hdir hmeta hload hitems
    have hv : loadedMetaView fs year = some md := by
      simp [loadedMetaView, hdir, hmeta, hload]
    obtain ⟨c', hlyd, hok', ye, hy, hmeta'⟩ :=
      (load_year_view fs [] year (cacheOk_nil fs)).2 md hv
    obtain ⟨c2, ye2, hfold, hok2, hy2⟩ :=
      year_fold fs today year hsafe ye.meta_data c' [] ye hok' hy
        (by rw [hmeta']; exact hitems)
    rw [hmeta'] at hfold
    refine ⟨c2, ?_⟩
    unfold get_ipos_by_year_core
    simp only [hlyd, hy]
    rw [hmeta']
    simp only [hfold]
    simp
  · intro hsafe hitems
    obtain ⟨c2, hfold, hok2⟩ :=
      all_years_fold fs today hsafe (sortDesc fs.years) [] [] (cacheOk_nil fs) hitems
    refine ⟨c2, ?_⟩
    unfold get_all_ipos_core
    simp only [hfold]
    simp
  · intro stype hsafe hvalid hitems
    obtain ⟨c2, hfold, hok2⟩ :=
      status_years_fold fs today (lowerStr stype) hsafe (sortDesc fs.years) [] []
        (cacheOk_nil fs) hitems
    refine ⟨c2, ?_⟩
    unfold get_ipos_by_status_core
    have hcond : (lowerStr stype = "upcoming" || lowerStr stype = "open" ||
        lowerStr stype = "closed") = true := by
      rcases hvalid with h | h | h <;> simp [h]
    simp only [hcond, hfold]
    simp

/-- Fixture index entry whose record file exists. -/
def itemG : Json := Json.obj [("name", Json.str "Good"), ("json_path", Json.str "g.json")]

/-- Fixture index entry whose record file is missing (a failing detail
load). -/
def itemM : Json := Json.obj [("name", Json.str "Missing"), ("json_path", Json.str "m.json")]

/-- Fixture corpus for the amended claim: year 2025 lists a loadable record
and one whose detail file is absent. -/
def fsW9 : FS := FS.mk [2025]
  (fun y => decide (y = 2025))
  (fun y => decide (y = 2025))
  (fun _ => 1)
  (fun y => if y = 2025 then some [itemG, itemM] else none)
  (fun p => decide (p = "g.json"))
  (fun _ => 1)
  (fun p => if p = "g.json" then some docG else none)

/-- Envelope the listing endpoints produce for the loadable record. -/
def envG9 : Json :=
  Json.obj [("name", Json.str "Good"), ("slug", Json.null), ("url", Json.null),
    ("html_path", Json.null), ("json_path", Json.str "g.json"),
    ("year", Json.num 2025), ("status", Json.str "Open")]

/-- Envelope for the record whose file is missing: status Unknown, still
listed. -/
def envM9 : Json :=
  Json.obj [("name", Json.str "Missing"), ("slug", Json.null), ("url", Json.null),
    ("html_path", Json.null), ("json_path", Json.str "m.json"),
    ("year", Json.num 2025), ("status", Json.str "Unknown")]

/-- Witness for the amended C9: on the fixture with one missing detail
file, all three listing endpoints succeed; the year and all endpoints list
both records (the failed one with status Unknown), the status filter keeps
the open one. -/
theorem claim_C9_amended_witness :
    (∃ c2, get_ipos_by_year_core fsW9 [] (PyDate.mk 2030 1 2) 2025
        = Except.ok (c2, [envG9, envM9])) ∧
    (∃ c2, get_all_ipos_core fsW9 [] (PyDate.mk 2030 1 2)
        = Except.ok (c2, [envG9, envM9])) ∧
    (∃ c2, get_ipos_by_status_core fsW9 [] (PyDate.mk 2030 1 2) "Open"
        = Except.ok (c2, [envG9])) := by
  have hsafe : statusSafe fsW9 (PyDate.mk 2030 1 2) := by
    intro p j h
    by_cases hp : p = "g.json"
    · subst hp
      simp [fsW9] at h
      subst h
      exact ⟨"Open", rfl⟩
    · simp [fsW9, hp] at h
  have hstrict : ∀ item ∈ [itemG, itemM], itemHasStrPath item := by
    intro item h
    rcases List.mem_cons.mp h with rfl | h
    · exact ⟨_, "g.json", rfl, rfl⟩
    rcases List.mem_cons.mp h with rfl | h
    · exact ⟨_, "m.json", rfl, rfl⟩
    · cases h
  have hviews : ∀ y md2, loadedMetaView fsW9 y = some md2 → md2 = [itemG, itemM] := by
    intro y md2 hv
    by_cases hy : y = 2025
    · subst hy
      simp [loadedMetaView, fsW9] at hv
      exact hv.symm
    · simp [loadedMetaView, fsW9, hy] at hv
  refine ⟨?_, ?_, ?_⟩
  · obtain ⟨c2, h⟩ := (claim_C9_amended fsW9 (PyDate.mk 2030 1 2)).1 2025 [itemG, itemM]
      hsafe rfl rfl rfl hstrict
    exact ⟨c2, by rw [h]; rfl⟩
  · obtain ⟨c2, h⟩ := (claim_C9_amended fsW9 (PyDate.mk 2030 1 2)).2.1 hsafe
      (by
        intro y md2 hv item hit
        rw [hviews y md2 hv] at hit
        rcases List.mem_cons.mp hit with rfl | hit
        · exact ⟨_, rfl, by
            intro v hv2
            simp [assocFind] at hv2
            exact Or.inl ⟨"g.json", hv2.symm⟩⟩
        rcases List.mem_cons.mp hit with rfl | hit
        · exact ⟨_, rfl, by
            intro v hv2
            simp [assocFind] at hv2
            exact Or.inl ⟨"m.json", hv2.symm⟩⟩
        · cases hit)
    exact ⟨c2, by rw [h]; rfl⟩
  · obtain ⟨c2, h⟩ := (claim_C9_amended fsW9 (PyDate.mk 2030 1 2)).2.2 "Open" hsafe
      (Or.inr (Or.inl rfl))
      (by
        intro y md2 hv item hit
        rw [hviews y md2 hv] at hit
        exact hstrict item hit)
    exact ⟨c2, by rw [h]; rfl⟩
